import Mathlib

/-!
Verification of the session-room connection manager and adaptive question
scheduler of the LearningPlatform backend.

The definitions below are a shallow embedding of
- backend/src/services/ws_manager.py   (WebSocketManager: session rooms),
- backend/src/routers/live.py          (trigger_question resolution/delivery),
- backend/src/services/adaptive_scheduler.py (AdaptiveQuestionScheduler),
- backend/src/services/engagement_predictor.py (EngagementPredictor.predict).

Python dicts are embedded as insertion-ordered association lists
(update-in-place on an existing key, append on a new key), timestamps as
natural numbers, floats as rationals, and a websocket transport as a record
carrying an identity and a flag saying whether send_json succeeds on it.
Fallible operations (Python code that can raise) return Option.
-/

namespace LearningPlatform

/-! ## Association lists with Python-dict semantics -/

abbrev AList (α : Type) := List (String × α)

def lookupA {α : Type} (k : String) : AList α → Option α
  | [] => none
  | (k', v) :: t => if k' = k then some v else lookupA k t

def updateA {α : Type} (k : String) (v : α) : AList α → AList α
  | [] => [(k, v)]
  | (k', v') :: t => if k' = k then (k, v) :: t else (k', v') :: updateA k v t

def removeA {α : Type} (k : String) : AList α → AList α
  | [] => []
  | (k', v') :: t => if k' = k then t else (k', v') :: removeA k t

def keysA {α : Type} (m : AList α) : List String := m.map Prod.fst

/-! ## Transport handles and participants (ws_manager.py) -/

/-- A websocket transport handle; `sendOk` abstracts whether `send_json`
succeeds on this transport or raises. -/
structure WS where
  id : Nat
  sendOk : Bool
deriving DecidableEq

/-- Whether a stored (optional) transport accepts a send. -/
def transportOk : Option WS → Bool
  | some w => w.sendOk
  | none => false

/-- One entry of a session room, mirroring the participant dict built in
`join_session_room` (`websocket`, `studentId`, `studentName`,
`studentEmail`, `status`, `joinedAt`) plus the `leftAt` key that
`leave_session_room` adds. -/
structure Participant where
  websocket : Option WS
  studentId : String
  studentName : String
  studentEmail : Option String
  status : String
  joinedAt : Nat
  leftAt : Option Nat
deriving DecidableEq

abbrev Room := AList Participant

abbrev SessionRooms := AList Room

/-- Mirrors the Python expression
`student_name or f"Student {student_id[:8]}"` (an empty or missing name
falls back to the generated one). -/
def pyStudentName (student_id : String) (student_name : Option String) : String :=
  match student_name with
  | some s => if s = "" then "Student " ++ student_id.take 8 else s
  | none => "Student " ++ student_id.take 8

/-- Result dict of `join_session_room`. -/
structure JoinResult where
  sessionId : String
  studentId : String
  studentName : String
  status : String
  participantCount : Nat
deriving DecidableEq

/-- The participant dict literal built by `join_session_room`. -/
def joinParticipant (websocket : WS) (student_id : String)
    (student_name student_email : Option String) (now : Nat) : Participant :=
  { websocket := some websocket
    studentId := student_id
    studentName := pyStudentName student_id student_name
    studentEmail := student_email
    status := "joined"
    joinedAt := now
    leftAt := none }

/-- `WebSocketManager.join_session_room`: creates the room if absent and
stores (replacing any previous entry for the same student) a fresh
participant record with status "joined". Total: never raises. -/
def join_session_room (rooms : SessionRooms) (websocket : WS)
    (session_id student_id : String)
    (student_name student_email : Option String) (now : Nat) :
    SessionRooms × JoinResult :=
  let room := (lookupA session_id rooms).getD []
  let participant := joinParticipant websocket student_id student_name student_email now
  let room2 := updateA student_id participant room
  (updateA session_id room2 rooms,
   { sessionId := session_id
     studentId := student_id
     studentName := participant.studentName
     status := "joined"
     participantCount := room2.length })

/-- `WebSocketManager.leave_session_room`: marks the participant as left
(entry retained for tracking); returns false when absent. -/
def leave_session_room (rooms : SessionRooms) (session_id student_id : String)
    (now : Nat) : SessionRooms × Bool :=
  match lookupA session_id rooms with
  | none => (rooms, false)
  | some room =>
    match lookupA student_id room with
    | none => (rooms, false)
    | some p =>
      let p2 : Participant := { p with status := "left", leftAt := some now }
      (updateA session_id (updateA student_id p2 room) rooms, true)

/-- Projection returned by `get_session_participants` for each active entry. -/
structure ParticipantInfo where
  studentId : String
  studentName : String
  studentEmail : Option String
  joinedAt : Nat
  status : String
deriving DecidableEq

def participantInfo (student_id : String) (p : Participant) : ParticipantInfo :=
  { studentId := student_id
    studentName := p.studentName
    studentEmail := p.studentEmail
    joinedAt := p.joinedAt
    status := p.status }

/-- `WebSocketManager.get_session_participants`: all entries whose status is
"joined". -/
def get_session_participants (rooms : SessionRooms) (session_id : String) :
    List ParticipantInfo :=
  match lookupA session_id rooms with
  | none => []
  | some room =>
    (room.filter (fun e => e.2.status == "joined")).map (fun e => participantInfo e.1 e.2)

/-- The loop body of `broadcast_to_session`: counts a successful send,
collects the student in the dead list on a raising send, and skips entries
that are not joined or have no websocket. -/
def broadcastStep (acc : Nat × List String) (e : String × Participant) :
    Nat × List String :=
  if e.2.status = "joined" then
    match e.2.websocket with
    | some w => if w.sendOk then (acc.1 + 1, acc.2) else (acc.1, acc.2 ++ [e.1])
    | none => acc
  else acc

/-- The dead-connections cleanup loop of `broadcast_to_session`:
`for student_id in dead_connections: self.leave_session_room(...)`. -/
def applyLeaves (rooms : SessionRooms) (session_id : String) (ds : List String)
    (now : Nat) : SessionRooms :=
  ds.foldl (fun rs s => (leave_session_room rs session_id s now).1) rooms

/-- `WebSocketManager.broadcast_to_session`: sends to every joined
participant, counting successes, then marks every failed participant as
left via `leave_session_room`. Returns 0 on a missing room. Total: the
per-participant send exception is absorbed, never propagated. -/
def broadcast_to_session (rooms : SessionRooms) (session_id : String) (now : Nat) :
    SessionRooms × Nat :=
  match lookupA session_id rooms with
  | none => (rooms, 0)
  | some room =>
    let scan := room.foldl broadcastStep (0, [])
    (applyLeaves rooms session_id scan.2 now, scan.1)

/-- A participant the broadcast loop counts as sent: joined with a
transport whose send succeeds. -/
def joinedOk (p : Participant) : Bool :=
  if p.status = "joined" then transportOk p.websocket else false

/-- A participant the broadcast loop marks dead: joined with a transport
whose send raises. -/
def joinedFails (p : Participant) : Bool :=
  if p.status = "joined" then
    match p.websocket with
    | some w => !w.sendOk
    | none => false
  else false

/-- The participant stored for a given student under a given room key. -/
def lookupRoomEntry (rooms : SessionRooms) (session_id student_id : String) :
    Option Participant :=
  match lookupA session_id rooms with
  | none => none
  | some room => lookupA student_id room

/-! ## Quiz trigger (routers/live.py, trigger_question) -/

/-- The fields of a persisted session document that `trigger_question`
reads: the provider meeting id (already stringified; `none` when the
stored value is falsy) and the internal document id. -/
structure SessionDoc where
  zoomMeetingId : Option String
  mongoId : String
deriving DecidableEq

/-- Lines 43-76 of live.py: the candidate session ids, starting from the
caller-supplied `meeting_id` and appending the session document's zoom id
and mongo id when present and not already listed. -/
def build_candidate_ids (meeting_id : String) (doc : Option SessionDoc) : List String :=
  match doc with
  | none => [meeting_id]
  | some d =>
    let ids := [meeting_id]
    let ids2 :=
      match d.zoomMeetingId with
      | some z => if z ∈ ids then ids else ids ++ [z]
      | none => ids
    if d.mongoId ∈ ids2 then ids2 else ids2 ++ [d.mongoId]

/-- A participant tagged with the session key it registered under, as
consumed by the counting and delivery loops of `trigger_question`. -/
structure TaggedParticipant where
  sessionId : String
  studentId : String
  studentName : String
deriving DecidableEq

/-- Tags one joined participant with the session key it registered under. -/
def tagOf (sid : String) (info : ParticipantInfo) : TaggedParticipant :=
  { sessionId := sid, studentId := info.studentId, studentName := info.studentName }

/-- Modelled from the spec: `ws_manager.get_session_participants_by_multiple_ids`
is called by `trigger_question` (live.py line 89) but is missing from the
`WebSocketManager` sources. Per spec section 4.1/4.3 it returns, for every
candidate key, that key's joined participants, each tagged with the
session id it registered under (`p.get("sessionId", ...)` in the caller). -/
def get_session_participants_by_multiple_ids (rooms : SessionRooms)
    (ids : List String) : List TaggedParticipant :=
  (ids.map (fun sid =>
    (get_session_participants rooms sid).map (tagOf sid))).flatten

/-- Modelled from the spec: `ws_manager.send_to_student_in_session` is
called by `trigger_question` (live.py lines 198 and 202) but is missing
from the `WebSocketManager` sources. Per spec section 4.2 (`sendToOne`) it
delivers to exactly one participant if joined, returns false (not an
error) when the participant is absent or not joined, and applies the same
implicit-disconnect handling as the broadcast on a send failure. -/
def send_to_student_in_session (rooms : SessionRooms)
    (session_id student_id : String) (now : Nat) : SessionRooms × Bool :=
  match lookupRoomEntry rooms session_id student_id with
  | none => (rooms, false)
  | some p =>
    if p.status = "joined" then
      match p.websocket with
      | some w =>
        if w.sendOk then (rooms, true)
        else ((leave_session_room rooms session_id student_id now).1, false)
      | none => (rooms, false)
    else (rooms, false)

/-- One step of building `participant_counts` (live.py lines 93-96):
`participant_counts[sid] = participant_counts.get(sid, 0) + 1`. -/
def bumpCount (k : String) : AList Nat → AList Nat
  | [] => [(k, 1)]
  | (k', c) :: t => if k' = k then (k', c + 1) :: t else (k', c) :: bumpCount k t

def build_participant_counts (ps : List TaggedParticipant) : AList Nat :=
  ps.foldl (fun m p => bumpCount p.sessionId m) []

/-- Python's `max(items, key=...)` over the insertion-ordered counts dict:
the first entry attaining the maximal count. -/
def argmax_first : AList Nat → Option (String × Nat)
  | [] => none
  | (k, c) :: t =>
    match argmax_first t with
    | none => some (k, c)
    | some (k', c') => if c' > c then some (k', c') else some (k, c)

/-- The delivery-relevant outcome of `trigger_question` (the JSON response
fields `sessionId`, `websocketSent` and the studentIds of
`sentQuestions`). -/
structure TriggerResult where
  success : Bool
  effectiveId : String
  wsSentCount : Nat
  sentStudentIds : List String
deriving DecidableEq

/-- The per-student delivery loop body (live.py lines 175-213): send with
the student's own session id, fall back to the effective meeting id on
failure, and record the student on success. Question selection is elided:
it draws from an external question bank and does not affect delivery. -/
def triggerSendStep (now : Nat) (effective : String)
    (acc : SessionRooms × Nat × List String) (p : TaggedParticipant) :
    SessionRooms × Nat × List String :=
  let r1 := send_to_student_in_session acc.1 p.sessionId p.studentId now
  let r2 :=
    if r1.2 = false ∧ p.sessionId ≠ effective then
      send_to_student_in_session r1.1 effective p.studentId now
    else r1
  if r2.2 then (r2.1, acc.2.1 + 1, acc.2.2 ++ [p.studentId])
  else (r2.1, acc.2.1, acc.2.2)

/-- The effective meeting id chosen by `trigger_question` (live.py lines
92-101): the candidate session id carrying the most participants, via
Python's `max` over the insertion-ordered counts dict; falls back to the
caller-supplied id when there are no participants at all. -/
def trigger_effective (rooms : SessionRooms) (meeting_id : String)
    (doc : Option SessionDoc) : String :=
  match argmax_first (build_participant_counts
      (get_session_participants_by_multiple_ids rooms
        (build_candidate_ids meeting_id doc))) with
  | some kc => kc.1
  | none => meeting_id

/-- The student participants of the trigger (live.py lines 138-152):
everyone found under the candidate ids except instructor connections. -/
def trigger_students (rooms : SessionRooms) (meeting_id : String)
    (doc : Option SessionDoc) : List TaggedParticipant :=
  (get_session_participants_by_multiple_ids rooms
    (build_candidate_ids meeting_id doc)).filter
      (fun p => !(p.studentId.startsWith "instructor_"))

/-- The delivery loop of `trigger_question` (live.py lines 170-213) run
over all student participants, threading the room state and accumulating
the sent count and the students reached. -/
def trigger_final (rooms : SessionRooms) (meeting_id : String)
    (doc : Option SessionDoc) (now : Nat) : SessionRooms × Nat × List String :=
  (trigger_students rooms meeting_id doc).foldl
    (triggerSendStep now (trigger_effective rooms meeting_id doc)) (rooms, 0, [])

/-- `trigger_question` (live.py): resolve the candidate session ids,
gather participants under all of them, pick the effective id as the one
with the most participants, filter out instructor connections, and send
each remaining student an (independently chosen) question. The MongoDB
question fetch, quiz-storage and push-notification steps are external
collaborators and elided. -/
def trigger_question (rooms : SessionRooms) (meeting_id : String)
    (doc : Option SessionDoc) (now : Nat) : SessionRooms × TriggerResult :=
  let ids := build_candidate_ids meeting_id doc
  let participants := get_session_participants_by_multiple_ids rooms ids
  if participants.isEmpty then
    (rooms, { success := false, effectiveId := meeting_id, wsSentCount := 0,
              sentStudentIds := [] })
  else
    let effective := trigger_effective rooms meeting_id doc
    let students := trigger_students rooms meeting_id doc
    if students.isEmpty then
      (rooms, { success := false, effectiveId := effective, wsSentCount := 0,
                sentStudentIds := [] })
    else
      let final := trigger_final rooms meeting_id doc now
      (final.1, { success := true, effectiveId := effective,
                  wsSentCount := final.2.1, sentStudentIds := final.2.2 })

/-! ## Engagement predictor (engagement_predictor.py) -/

/-- Per-class probabilities returned by the predictor. -/
structure PredProbs where
  active : ℚ
  moderate : ℚ
  passive : ℚ
deriving DecidableEq

/-- The (label, confidence, probabilities) triple returned by
`EngagementPredictor.predict`. -/
structure PredResult where
  label : String
  confidence : ℚ
  probs : PredProbs
deriving DecidableEq

/-- The literal fallback of `predict`:
`"Moderate", 0.5, {"Active": 0.33, "Moderate": 0.34, "Passive": 0.33}`. -/
def fallbackPrediction : PredResult :=
  { label := "Moderate", confidence := 1/2,
    probs := { active := 33/100, moderate := 34/100, passive := 33/100 } }

/-- `EngagementPredictor.predict`: the guarded body. `inner` abstracts the
DataFrame/preprocessor/XGBoost pipeline of the try-block (lines 174-200);
`none` models that pipeline raising. When the model is not loaded, or the
pipeline raises, the explicit fallback triple is returned; the method
itself never raises. -/
def predict (model_loaded : Bool) (inner : Option PredResult) : PredResult :=
  if model_loaded = false then fallbackPrediction
  else
    match inner with
    | some r => r
    | none => fallbackPrediction

/-- The predictor as the scheduler sees it: the loaded flag plus the
abstract pipeline, a function of the system-data arguments of
`predict_from_system_data` (is_correct, response_time, rtt_ms,
question_difficulty, network_quality). Feature extraction
(`extract_features_from_system_data`) is total and is folded into the
abstract pipeline, which is only consulted when the model is loaded. -/
structure Predictor where
  model_loaded : Bool
  inner : Bool → ℚ → ℚ → String → String → Option PredResult

def predict_from_system_data (pr : Predictor) (is_correct : Bool)
    (response_time rtt_ms : ℚ) (question_difficulty network_quality : String) :
    PredResult :=
  predict pr.model_loaded
    (pr.inner is_correct response_time rtt_ms question_difficulty network_quality)

/-! ## Adaptive scheduler (adaptive_scheduler.py) -/

/-- `AdaptiveQuestionScheduler.INTERVALS`, a dict from engagement level to
an interval range in seconds; `none` models the `KeyError` on any other
level string. -/
def INTERVALS (level : String) : Option (Nat × Nat) :=
  if level = "Passive" then some (120, 300)
  else if level = "Moderate" then some (300, 480)
  else if level = "Active" then some (600, 900)
  else none

/-- `AdaptiveQuestionScheduler.EXPECTED_COUNTS`, transcribed with the same
arithmetic as the source (`"Passive": 15-20, "Moderate": 8-12,
"Active": 4-6` as Python integer expressions). -/
def EXPECTED_COUNTS (level : String) : Option Int :=
  if level = "Passive" then some (15 - 20)
  else if level = "Moderate" then some (8 - 12)
  else if level = "Active" then some (4 - 6)
  else none

/-- One entry of `student_schedules`. -/
structure Schedule where
  session_id : String
  engagement_level : String
  next_question_time : Nat
  questions_sent : Nat
  questions_answered : Nat
  questions_correct : Nat
  last_rtt : ℚ
  last_network_quality : String
  engagement_history : List String
deriving DecidableEq

/-- One entry of `active_sessions`. -/
structure SessionData where
  start_time : Nat
  students : AList String
  questions_sent : Nat
deriving DecidableEq

/-- The scheduler's two in-memory registries. -/
structure SchedulerState where
  active_sessions : AList SessionData
  student_schedules : AList Schedule
deriving DecidableEq

def emptySchedulerState : SchedulerState :=
  { active_sessions := [], student_schedules := [] }

/-- The contract of Python's `random.randint(a, b)`: a draw within the
inclusive bounds a and b. Scheduler operations take the draw function as
an injected random source. -/
def randintContract (rng : Nat → Nat → Nat) : Prop :=
  ∀ a b, a ≤ b → a ≤ rng a b ∧ rng a b ≤ b

/-- A legitimate `randint` behaviour that always returns the upper bound. -/
def rngHi : Nat → Nat → Nat := fun _ b => b

/-- A legitimate `randint` behaviour that always returns the lower bound. -/
def rngLo : Nat → Nat → Nat := fun a _ => a

/-- `AdaptiveQuestionScheduler.start_session`: idempotent creation. -/
def start_session (st : SchedulerState) (session_id : String) (now : Nat) :
    SchedulerState :=
  match lookupA session_id st.active_sessions with
  | some _ => st
  | none =>
    let sd : SessionData := { start_time := now, students := [], questions_sent := 0 }
    { st with active_sessions := updateA session_id sd st.active_sessions }

/-- `AdaptiveQuestionScheduler.stop_session`: collects every schedule whose
session_id matches, deletes each, then deletes the session; no-op when the
session is not active. -/
def stop_session (st : SchedulerState) (session_id : String) : SchedulerState :=
  match lookupA session_id st.active_sessions with
  | none => st
  | some _ =>
    let students_to_remove :=
      (st.student_schedules.filter (fun e => e.2.session_id == session_id)).map Prod.fst
    let schedules2 := students_to_remove.foldl (fun m k => removeA k m) st.student_schedules
    { active_sessions := removeA session_id st.active_sessions,
      student_schedules := schedules2 }

/-- `AdaptiveQuestionScheduler.add_student`: ensures the session exists,
draws the initial delay from the level's interval (`none` models the
`KeyError` on an unknown level), stores a fresh schedule keyed by
student_id alone, and records the level in the session's denormalized
students map. -/
def add_student (rng : Nat → Nat → Nat) (now : Nat) (st : SchedulerState)
    (session_id student_id initial_engagement : String) : Option SchedulerState :=
  let st1 :=
    if (lookupA session_id st.active_sessions).isSome then st
    else start_session st session_id now
  match INTERVALS initial_engagement with
  | none => none
  | some (interval_min, interval_max) =>
    let next_question_delay := rng interval_min interval_max
    let schedule : Schedule :=
      { session_id := session_id
        engagement_level := initial_engagement
        next_question_time := now + next_question_delay
        questions_sent := 0
        questions_answered := 0
        questions_correct := 0
        last_rtt := 100
        last_network_quality := "Good"
        engagement_history := [initial_engagement] }
    let st2 := { st1 with
      student_schedules := updateA student_id schedule st1.student_schedules }
    match lookupA session_id st2.active_sessions with
    | none => none
    | some sd =>
      let sd2 := { sd with students := updateA student_id initial_engagement sd.students }
      some { st2 with active_sessions := updateA session_id sd2 st2.active_sessions }

/-- `AdaptiveQuestionScheduler.remove_student`. -/
def remove_student (st : SchedulerState) (student_id : String) : SchedulerState :=
  match lookupA student_id st.student_schedules with
  | none => st
  | some schedule =>
    let session_id := schedule.session_id
    let st1 :=
      match lookupA session_id st.active_sessions with
      | none => st
      | some sd =>
        if (lookupA student_id sd.students).isSome then
          let sd2 := { sd with students := removeA student_id sd.students }
          { st with active_sessions := updateA session_id sd2 st.active_sessions }
        else st
    { st1 with student_schedules := removeA student_id st1.student_schedules }

/-- `AdaptiveQuestionScheduler.update_student_engagement` (the recordAnswer
path): bump answer counters, reclassify via the predictor, append the new
label to the history unconditionally, mirror it into the session's
students map, and redraw `next_question_time` from the new label's
interval. `none` models the `KeyError` raised when the predictor returns a
label outside INTERVALS (the partially mutated state at the raise point is
not observable through any property considered here). -/
def update_student_engagement (pr : Predictor) (rng : Nat → Nat → Nat) (now : Nat)
    (st : SchedulerState) (student_id : String) (is_correct : Bool)
    (response_time rtt_ms : ℚ) (question_difficulty : String) :
    Option SchedulerState :=
  match lookupA student_id st.student_schedules with
  | none => some st
  | some schedule =>
    let schedule1 := { schedule with
      questions_answered := schedule.questions_answered + 1
      questions_correct := schedule.questions_correct + (if is_correct then 1 else 0)
      last_rtt := rtt_ms }
    let res := predict_from_system_data pr is_correct response_time rtt_ms
      question_difficulty schedule.last_network_quality
    let engagement_level := res.label
    let schedule2 := { schedule1 with
      engagement_level := engagement_level
      engagement_history := schedule1.engagement_history ++ [engagement_level] }
    let st1 := { st with
      student_schedules := updateA student_id schedule2 st.student_schedules }
    let st2 :=
      match lookupA schedule.session_id st1.active_sessions with
      | none => st1
      | some sd =>
        let sd2 := { sd with students := updateA student_id engagement_level sd.students }
        { st1 with active_sessions := updateA schedule.session_id sd2 st1.active_sessions }
    match INTERVALS engagement_level with
    | none => none
    | some (interval_min, interval_max) =>
      let next_question_delay := rng interval_min interval_max
      let schedule3 := { schedule2 with next_question_time := now + next_question_delay }
      some { st2 with student_schedules := updateA student_id schedule3 st2.student_schedules }

/-- `AdaptiveQuestionScheduler.mark_question_sent`: bump the sent counter,
redraw `next_question_time` from the current label's interval, and bump
the session's cumulative counter. -/
def mark_question_sent (rng : Nat → Nat → Nat) (now : Nat) (st : SchedulerState)
    (student_id : String) : Option SchedulerState :=
  match lookupA student_id st.student_schedules with
  | none => some st
  | some schedule =>
    let schedule1 := { schedule with questions_sent := schedule.questions_sent + 1 }
    match INTERVALS schedule1.engagement_level with
    | none => none
    | some (interval_min, interval_max) =>
      let next_question_delay := rng interval_min interval_max
      let schedule2 :=
        { schedule1 with next_question_time := now + next_question_delay }
      let st1 := { st with
        student_schedules := updateA student_id schedule2 st.student_schedules }
      match lookupA schedule.session_id st1.active_sessions with
      | none => some st1
      | some sd =>
        let sd2 := { sd with questions_sent := sd.questions_sent + 1 }
        some { st1 with active_sessions := updateA schedule.session_id sd2 st1.active_sessions }

/-- The projection returned by `get_student_stats`. -/
structure StudentStats where
  engagement_level : String
  questions_sent : Nat
  questions_answered : Nat
  accuracy : ℚ
  last_rtt : ℚ
  engagement_history : List String
deriving DecidableEq

/-- `AdaptiveQuestionScheduler.get_student_stats`: `None` when unknown;
otherwise the stats dict, whose accuracy starts at 0.0 and is overwritten
with correct/answered only when answered > 0. -/
def get_student_stats (st : SchedulerState) (student_id : String) :
    Option StudentStats :=
  match lookupA student_id st.student_schedules with
  | none => none
  | some schedule =>
    let accuracy : ℚ :=
      if schedule.questions_answered > 0 then
        (schedule.questions_correct : ℚ) / (schedule.questions_answered : ℚ)
      else 0
    some { engagement_level := schedule.engagement_level
           questions_sent := schedule.questions_sent
           questions_answered := schedule.questions_answered
           accuracy := accuracy
           last_rtt := schedule.last_rtt
           engagement_history := schedule.engagement_history }

/-! ## Concrete instances used by witnesses and counterexamples -/

def pSendOk1 : Participant :=
  { websocket := some ⟨1, true⟩, studentId := "s1", studentName := "Alice",
    studentEmail := none, status := "joined", joinedAt := 0, leftAt := none }

def pSendFail : Participant :=
  { websocket := some ⟨2, false⟩, studentId := "s2", studentName := "Bob",
    studentEmail := none, status := "joined", joinedAt := 0, leftAt := none }

def pSendOk3 : Participant :=
  { websocket := some ⟨3, true⟩, studentId := "s3", studentName := "Cleo",
    studentEmail := none, status := "joined", joinedAt := 0, leftAt := none }

def room3 : Room := [("s1", pSendOk1), ("s2", pSendFail), ("s3", pSendOk3)]

def rooms3 : SessionRooms := [("r", room3)]

def pLeft2 : Participant :=
  { websocket := some ⟨4, true⟩, studentId := "s2", studentName := "Bob",
    studentEmail := none, status := "left", joinedAt := 0, leftAt := some 1 }

def room42 : Room := [("s1", pSendOk1), ("s2", pLeft2)]

def rooms42 : SessionRooms := [("42", room42)]

def pOldX : Participant :=
  { websocket := some ⟨5, true⟩, studentId := "x", studentName := "Old",
    studentEmail := none, status := "left", joinedAt := 0, leftAt := some 2 }

def roomsJ : SessionRooms := [("s", [("x", pOldX)])]

def pAliasX : Participant :=
  { websocket := some ⟨10, true⟩, studentId := "x", studentName := "X",
    studentEmail := none, status := "joined", joinedAt := 0, leftAt := none }

def pAliasY : Participant :=
  { websocket := some ⟨11, true⟩, studentId := "y", studentName := "Y",
    studentEmail := none, status := "joined", joinedAt := 0, leftAt := none }

def pAliasZ : Participant :=
  { websocket := some ⟨12, true⟩, studentId := "z", studentName := "Z",
    studentEmail := none, status := "joined", joinedAt := 0, leftAt := none }

def roomsC1 : SessionRooms :=
  [("A", [("x", pAliasX)]), ("B", [("y", pAliasY), ("z", pAliasZ)])]

def docC1 : Option SessionDoc := some { zoomMeetingId := some "A", mongoId := "B" }

def schedModerate (sid : String) : Schedule :=
  { session_id := sid, engagement_level := "Moderate", next_question_time := 400,
    questions_sent := 0, questions_answered := 0, questions_correct := 0,
    last_rtt := 100, last_network_quality := "Good",
    engagement_history := ["Moderate"] }

def stTwoStudents : SchedulerState :=
  { active_sessions :=
      [("S", { start_time := 0,
               students := [("s1", "Moderate"), ("s2", "Moderate")],
               questions_sent := 0 })]
    student_schedules := [("s1", schedModerate "S"), ("s2", schedModerate "S")] }

def schedAnswered : Schedule :=
  { session_id := "S", engagement_level := "Active", next_question_time := 700,
    questions_sent := 5, questions_answered := 4, questions_correct := 3,
    last_rtt := 80, last_network_quality := "Good",
    engagement_history := ["Moderate", "Active"] }

def stStats : SchedulerState :=
  { active_sessions :=
      [("S", { start_time := 0,
               students := [("x", "Moderate"), ("w", "Active")],
               questions_sent := 5 })]
    student_schedules := [("x", schedModerate "S"), ("w", schedAnswered)] }

def predictorUnavailable : Predictor :=
  { model_loaded := false, inner := fun _ _ _ _ _ => none }

/-- The state produced by `add_student rngLo 0 emptySchedulerState "S" "x"
"Passive"` (lower-bound draw: delay 120). -/
def stAddedPassive : SchedulerState :=
  { active_sessions :=
      [("S", { start_time := 0, students := [("x", "Passive")], questions_sent := 0 })]
    student_schedules :=
      [("x", { session_id := "S", engagement_level := "Passive",
               next_question_time := 120, questions_sent := 0,
               questions_answered := 0, questions_correct := 0, last_rtt := 100,
               last_network_quality := "Good",
               engagement_history := ["Passive"] })] }

def stAliasSessions : SchedulerState :=
  { active_sessions :=
      [("S1", { start_time := 0, students := [("x", "Moderate")],
                questions_sent := 0 })]
    student_schedules := [("x", schedModerate "S1")] }

/-! ## Association-list lemmas -/

theorem lookupA_updateA_self {α : Type} (k : String) (v : α) (m : AList α) :
    lookupA k (updateA k v m) = some v := by
  induction m with
  | nil => simp [lookupA, updateA]
  | cons e t ih =>
    obtain ⟨k', v'⟩ := e
    by_cases h : k' = k <;> simp [lookupA, updateA, h, ih]

theorem lookupA_updateA_ne {α : Type} {k k' : String} (hne : k' ≠ k) (v : α) (m : AList α) :
    lookupA k' (updateA k v m) = lookupA k' m := by
  have hne2 : k ≠ k' := Ne.symm hne
  induction m with
  | nil => simp [lookupA, updateA, hne2]
  | cons e t ih =>
    obtain ⟨k₀, v₀⟩ := e
    by_cases h : k₀ = k
    · subst h
      simp [lookupA, updateA, hne2]
    · by_cases h2 : k₀ = k' <;> simp [lookupA, updateA, h, h2, hne, ih]

theorem length_updateA_of_lookup {α : Type} {k : String} {m : AList α} {v0 : α}
    (hmem : lookupA k m = some v0) (v : α) :
    (updateA k v m).length = m.length := by
  induction m with
  | nil => simp [lookupA] at hmem
  | cons e t ih =>
    obtain ⟨k', v'⟩ := e
    by_cases h : k' = k
    · simp [updateA, h]
    · simp [lookupA, h] at hmem
      simp [updateA, h, ih hmem]

theorem keysA_updateA_of_lookup {α : Type} {k : String} {m : AList α} {v0 : α}
    (hmem : lookupA k m = some v0) (v : α) :
    keysA (updateA k v m) = keysA m := by
  induction m with
  | nil => simp [lookupA] at hmem
  | cons e t ih =>
    obtain ⟨k', v'⟩ := e
    by_cases h : k' = k
    · subst h; simp [updateA, keysA]
    · simp [lookupA, h] at hmem
      simp [updateA, keysA, h] at ih ⊢
      exact ih hmem

theorem mem_of_lookupA {α : Type} {k : String} {m : AList α} {v : α}
    (h : lookupA k m = some v) : (k, v) ∈ m := by
  induction m with
  | nil => simp [lookupA] at h
  | cons e t ih =>
    obtain ⟨k', v'⟩ := e
    by_cases hk : k' = k
    · subst hk
      simp [lookupA] at h
      simp [h]
    · simp [lookupA, hk] at h
      exact List.mem_cons_of_mem _ (ih h)

theorem lookupA_of_mem_nodup {α : Type} {k : String} {m : AList α} {v : α}
    (hn : (keysA m).Nodup) (h : (k, v) ∈ m) : lookupA k m = some v := by
  induction m with
  | nil => simp at h
  | cons e t ih =>
    obtain ⟨k', v'⟩ := e
    simp only [keysA, List.map_cons, List.nodup_cons] at hn
    rcases List.mem_cons.mp h with h1 | h1
    · rw [Prod.ext_iff] at h1
      obtain ⟨hk, hv⟩ := h1
      simp only at hk hv
      simp [lookupA, hk, hv]
    · have hk : ¬ (k' = k) := by
        intro he
        subst he
        exact hn.1 (by simpa [keysA] using List.mem_map_of_mem Prod.fst h1)
      simp only [lookupA, if_neg hk]
      exact ih hn.2 h1

theorem lookupA_eq_none_of_not_mem_keys {α : Type} {k : String} {m : AList α}
    (h : k ∉ keysA m) : lookupA k m = none := by
  induction m with
  | nil => simp [lookupA]
  | cons e t ih =>
    obtain ⟨k', v'⟩ := e
    simp only [keysA, List.map_cons, List.mem_cons, not_or] at h
    have hk : ¬ (k' = k) := fun he => h.1 he.symm
    simp only [lookupA, if_neg hk]
    exact ih (by simpa [keysA] using h.2)

theorem lookupA_isSome_of_mem_keys {α : Type} {k : String} {m : AList α}
    (h : k ∈ keysA m) : (lookupA k m).isSome := by
  induction m with
  | nil => simp [keysA] at h
  | cons e t ih =>
    obtain ⟨k', v'⟩ := e
    by_cases hk : k' = k
    · simp [lookupA, hk]
    · simp [keysA, hk] at h
      rcases h with h | h
      · exact absurd h.symm hk
      · simpa [lookupA, hk] using ih (by simpa [keysA] using h)

/-! ## Characterization of the broadcast loop -/

theorem foldl_broadcastStep (room : Room) : ∀ (n : Nat) (ds : List String),
    room.foldl broadcastStep (n, ds) =
      (n + room.countP (fun e => joinedOk e.2),
       ds ++ (room.filter (fun e => joinedFails e.2)).map Prod.fst) := by
  induction room with
  | nil => intro n ds; simp
  | cons e t ih =>
    intro n ds
    obtain ⟨s, p⟩ := e
    simp only [List.foldl_cons]
    by_cases hj : p.status = "joined"
    · cases hws : p.websocket with
      | none =>
        have h1 : broadcastStep (n, ds) (s, p) = (n, ds) := by
          simp [broadcastStep, hj, hws]
        have h2 : joinedOk p = false := by simp [joinedOk, transportOk, hj, hws]
        have h3 : joinedFails p = false := by simp [joinedFails, hj, hws]
        rw [h1, ih]
        simp [List.countP_cons, List.filter_cons, h2, h3]
      | some w =>
        by_cases hok : w.sendOk
        · have h1 : broadcastStep (n, ds) (s, p) = (n + 1, ds) := by
            simp [broadcastStep, hj, hws, hok]
          have h2 : joinedOk p = true := by simp [joinedOk, transportOk, hj, hws, hok]
          have h3 : joinedFails p = false := by simp [joinedFails, hj, hws, hok]
          rw [h1, ih]
          simp [List.countP_cons, List.filter_cons, h2, h3]
          omega
        · have h1 : broadcastStep (n, ds) (s, p) = (n, ds ++ [s]) := by
            simp [broadcastStep, hj, hws, hok]
          have h2 : joinedOk p = false := by
            simp [joinedOk, transportOk, hj, hws, hok]
          have h3 : joinedFails p = true := by simp [joinedFails, hj, hws, hok]
          rw [h1, ih]
          simp [List.countP_cons, List.filter_cons, h2, h3]
    · have h1 : broadcastStep (n, ds) (s, p) = (n, ds) := by
        simp [broadcastStep, hj]
      have h2 : joinedOk p = false := by simp [joinedOk, hj]
      have h3 : joinedFails p = false := by simp [joinedFails, hj]
      rw [h1, ih]
      simp [List.countP_cons, List.filter_cons, h2, h3]

theorem leave_spec_noroom {rooms : SessionRooms} {sid : String} (stud : String)
    (hr : lookupA sid rooms = none) (now : Nat) :
    leave_session_room rooms sid stud now = (rooms, false) := by
  simp only [leave_session_room, hr]

theorem leave_spec_nostud {rooms : SessionRooms} {sid stud : String} {room : Room}
    (hr : lookupA sid rooms = some room) (hs : lookupA stud room = none) (now : Nat) :
    leave_session_room rooms sid stud now = (rooms, false) := by
  simp only [leave_session_room, hr, hs]

theorem leave_spec_some {rooms : SessionRooms} {sid stud : String} {room : Room}
    {p : Participant} (hr : lookupA sid rooms = some room)
    (hs : lookupA stud room = some p) (now : Nat) :
    leave_session_room rooms sid stud now =
      (updateA sid (updateA stud { p with status := "left", leftAt := some now } room)
        rooms, true) := by
  simp only [leave_session_room, hr, hs]

theorem leave_entry_self {rooms : SessionRooms} {sid stud : String} {p : Participant}
    (h : lookupRoomEntry rooms sid stud = some p) (now : Nat) :
    lookupRoomEntry (leave_session_room rooms sid stud now).1 sid stud =
      some { p with status := "left", leftAt := some now } := by
  cases hr : lookupA sid rooms with
  | none =>
    have h2 : (none : Option Participant) = some p := by
      simpa only [lookupRoomEntry, hr] using h
    exact Option.noConfusion h2
  | some room =>
    have h2 : lookupA stud room = some p := by
      simpa only [lookupRoomEntry, hr] using h
    rw [leave_spec_some hr h2 now]
    simp only [lookupRoomEntry, lookupA_updateA_self]

theorem leave_entry_other {rooms : SessionRooms} {sid stud sid2 stud2 : String} (now : Nat)
    (hne : ¬ (sid2 = sid ∧ stud2 = stud)) :
    lookupRoomEntry (leave_session_room rooms sid stud now).1 sid2 stud2 =
      lookupRoomEntry rooms sid2 stud2 := by
  cases hr : lookupA sid rooms with
  | none => rw [leave_spec_noroom stud hr now]
  | some room =>
    cases hs : lookupA stud room with
    | none => rw [leave_spec_nostud hr hs now]
    | some p =>
      rw [leave_spec_some hr hs now]
      by_cases h1 : sid2 = sid
      · subst h1
        have h2 : stud2 ≠ stud := fun he => hne ⟨rfl, he⟩
        simp only [lookupRoomEntry, lookupA_updateA_self, hr, lookupA_updateA_ne h2]
      · simp only [lookupRoomEntry, lookupA_updateA_ne h1]

theorem leave_room_keys {rooms : SessionRooms} {sid : String} (stud : String) (now : Nat)
    {room : Room} (hr : lookupA sid rooms = some room) :
    ∃ room2, lookupA sid (leave_session_room rooms sid stud now).1 = some room2 ∧
      keysA room2 = keysA room := by
  cases hs : lookupA stud room with
  | none => rw [leave_spec_nostud hr hs now]; exact ⟨room, hr, rfl⟩
  | some p =>
    rw [leave_spec_some hr hs now]
    exact ⟨_, lookupA_updateA_self _ _ _, keysA_updateA_of_lookup hs _⟩

theorem applyLeaves_entry_of_not_mem (sid : String) (now : Nat) :
    ∀ (ds : List String) (rooms : SessionRooms) (sid2 stud : String),
      ¬ (sid2 = sid ∧ stud ∈ ds) →
      lookupRoomEntry (applyLeaves rooms sid ds now) sid2 stud =
        lookupRoomEntry rooms sid2 stud := by
  intro ds
  induction ds with
  | nil => intro rooms sid2 stud _; rfl
  | cons d rest ih =>
    intro rooms sid2 stud h
    have h1 : ¬ (sid2 = sid ∧ stud ∈ rest) := by
      intro hc
      exact h ⟨hc.1, List.mem_cons_of_mem _ hc.2⟩
    have h2 : ¬ (sid2 = sid ∧ stud = d) := by
      intro hc
      exact h ⟨hc.1, by simp [hc.2]⟩
    calc lookupRoomEntry (applyLeaves (leave_session_room rooms sid d now).1 sid rest now) sid2 stud
        = lookupRoomEntry (leave_session_room rooms sid d now).1 sid2 stud := ih _ _ _ h1
      _ = lookupRoomEntry rooms sid2 stud := leave_entry_other now h2

theorem applyLeaves_entry_of_mem (sid : String) (now : Nat) :
    ∀ (ds : List String) (rooms : SessionRooms) (stud : String) (p : Participant),
      lookupRoomEntry rooms sid stud = some p → stud ∈ ds →
      ∃ q, lookupRoomEntry (applyLeaves rooms sid ds now) sid stud = some q ∧
        q.status = "left" := by
  intro ds
  induction ds with
  | nil => intro rooms stud p _ hmem; simp at hmem
  | cons d rest ih =>
    intro rooms stud p hp hmem
    by_cases hd : stud = d
    · subst hd
      have h1 := leave_entry_self hp now
      by_cases hrest : stud ∈ rest
      · exact ih _ _ _ h1 hrest
      · refine ⟨{ p with status := "left", leftAt := some now }, ?_, rfl⟩
        have h2 := applyLeaves_entry_of_not_mem sid now rest
          (leave_session_room rooms sid stud now).1 sid stud
          (fun hc => hrest hc.2)
        have hred : applyLeaves rooms sid (stud :: rest) now =
            applyLeaves (leave_session_room rooms sid stud now).1 sid rest now := rfl
        rw [hred, h2, h1]
    · have hrest : stud ∈ rest := by
        rcases List.mem_cons.mp hmem with h | h
        · exact absurd h hd
        · exact h
      have h1 : lookupRoomEntry (leave_session_room rooms sid d now).1 sid stud = some p := by
        rw [leave_entry_other now (fun hc => hd hc.2), hp]
      exact ih _ _ _ h1 hrest

theorem applyLeaves_room_keys (sid : String) (now : Nat) :
    ∀ (ds : List String) (rooms : SessionRooms) (room : Room),
      lookupA sid rooms = some room →
      ∃ room2, lookupA sid (applyLeaves rooms sid ds now) = some room2 ∧
        keysA room2 = keysA room := by
  intro ds
  induction ds with
  | nil => intro rooms room hr; exact ⟨room, hr, rfl⟩
  | cons d rest ih =>
    intro rooms room hr
    obtain ⟨room1, hr1, hk1⟩ := leave_room_keys d now hr
    obtain ⟨room2, hr2, hk2⟩ := ih _ _ hr1
    exact ⟨room2, hr2, hk2.trans hk1⟩

theorem not_in_participants_of_left {rooms : SessionRooms} {sid stud : String}
    {room : Room} {q : Participant}
    (hr : lookupA sid rooms = some room) (hn : (keysA room).Nodup)
    (hq : lookupA stud room = some q) (hqs : q.status ≠ "joined") :
    ∀ info ∈ get_session_participants rooms sid, info.studentId ≠ stud := by
  intro info hinfo
  unfold get_session_participants at hinfo
  rw [hr] at hinfo
  simp only [List.mem_map, List.mem_filter] at hinfo
  obtain ⟨⟨s, p⟩, ⟨hmem, hst⟩, hinfoeq⟩ := hinfo
  intro hcontra
  have hs : s = stud := by
    rw [← hinfoeq] at hcontra
    exact hcontra
  subst hs
  have h2 := lookupA_of_mem_nodup hn hmem
  rw [hq] at h2
  have hpq : q = p := Option.some.inj h2
  have hps : p.status = "joined" := by simpa using hst
  exact hqs (by rw [hpq]; exact hps)

theorem lookupRoomEntry_eq (rooms : SessionRooms) (sid stud : String) :
    lookupRoomEntry rooms sid stud =
      (lookupA sid rooms).bind (fun room => lookupA stud room) := by
  cases h : lookupA sid rooms <;> simp [lookupRoomEntry, h]

theorem broadcast_spec_some {rooms : SessionRooms} {sid : String} {room : Room}
    (now : Nat) (hr : lookupA sid rooms = some room) :
    broadcast_to_session rooms sid now =
      (applyLeaves rooms sid ((room.filter (fun e => joinedFails e.2)).map Prod.fst) now,
       room.countP (fun e => joinedOk e.2)) := by
  simp only [broadcast_to_session, hr, foldl_broadcastStep, Nat.zero_add,
    List.nil_append]

theorem status_eq_of_joinedFails {p : Participant} (h : joinedFails p = true) :
    p.status = "joined" := by
  by_cases hs : p.status = "joined"
  · exact hs
  · simp [joinedFails, hs] at h

theorem join_spec {rooms : SessionRooms} {sid : String} {room : Room}
    (hr : lookupA sid rooms = some room) (ws : WS) (stud : String)
    (name email : Option String) (now : Nat) :
    join_session_room rooms ws sid stud name email now =
      (updateA sid (updateA stud (joinParticipant ws stud name email now) room) rooms,
       { sessionId := sid, studentId := stud,
         studentName := (joinParticipant ws stud name email now).studentName,
         status := "joined",
         participantCount :=
           (updateA stud (joinParticipant ws stud name email now) room).length }) := by
  simp only [join_session_room, hr, Option.getD_some]

/-! ## Removal lemmas for the scheduler teardown -/

theorem lookupA_removeA_ne {α : Type} {k k' : String} (hne : k' ≠ k) (m : AList α) :
    lookupA k' (removeA k m) = lookupA k' m := by
  induction m with
  | nil => rfl
  | cons e t ih =>
    obtain ⟨k₀, v₀⟩ := e
    by_cases h : k₀ = k
    · subst h
      have h2 : ¬ (k₀ = k') := fun he => hne (he.symm)
      simp [removeA, lookupA, h2]
    · by_cases h2 : k₀ = k' <;> simp [removeA, lookupA, h, h2, hne, ih]

theorem removeA_of_not_mem {α : Type} {k : String} {m : AList α}
    (h : lookupA k m = none) : removeA k m = m := by
  induction m with
  | nil => rfl
  | cons e t ih =>
    obtain ⟨k₀, v₀⟩ := e
    by_cases hk : k₀ = k
    · simp [lookupA, hk] at h
    · simp [lookupA, hk] at h
      simp [removeA, hk, ih h]

theorem keysA_removeA_sublist {α : Type} (k : String) (m : AList α) :
    (keysA (removeA k m)).Sublist (keysA m) := by
  induction m with
  | nil => simp [removeA, keysA]
  | cons e t ih =>
    obtain ⟨k₀, v₀⟩ := e
    by_cases hk : k₀ = k
    · simp only [removeA, if_pos hk, keysA, List.map_cons]
      exact List.sublist_cons_of_sublist _ (List.Sublist.refl _)
    · simp only [removeA, if_neg hk, keysA, List.map_cons]
      exact List.Sublist.cons₂ _ ih

theorem removeA_nodup {α : Type} {k : String} {m : AList α}
    (hn : (keysA m).Nodup) : (keysA (removeA k m)).Nodup :=
  (keysA_removeA_sublist k m).nodup hn

theorem lookupA_removeA_self {α : Type} {k : String} {m : AList α}
    (hn : (keysA m).Nodup) : lookupA k (removeA k m) = none := by
  induction m with
  | nil => rfl
  | cons e t ih =>
    obtain ⟨k₀, v₀⟩ := e
    simp only [keysA, List.map_cons, List.nodup_cons] at hn
    by_cases hk : k₀ = k
    · subst hk
      simp only [removeA, if_pos rfl]
      apply lookupA_eq_none_of_not_mem_keys
      simpa [keysA] using hn.1
    · simp only [removeA, if_neg hk, lookupA, if_neg hk]
      exact ih hn.2

theorem fold_removeA_not_mem {α : Type} (x : String) :
    ∀ (ks : List String) (m : AList α), x ∉ ks →
      lookupA x (ks.foldl (fun m k => removeA k m) m) = lookupA x m := by
  intro ks
  induction ks with
  | nil => intro m _; rfl
  | cons k rest ih =>
    intro m hx
    simp only [List.mem_cons, not_or] at hx
    have h1 := ih (removeA k m) hx.2
    rw [List.foldl_cons, h1, lookupA_removeA_ne hx.1]

theorem fold_removeA_nodup {α : Type} :
    ∀ (ks : List String) (m : AList α), (keysA m).Nodup →
      (keysA (ks.foldl (fun m k => removeA k m) m)).Nodup := by
  intro ks
  induction ks with
  | nil => intro m hn; exact hn
  | cons k rest ih => intro m hn; exact ih _ (removeA_nodup hn)

theorem fold_removeA_mem {α : Type} (x : String) :
    ∀ (ks : List String) (m : AList α), (keysA m).Nodup → x ∈ ks →
      lookupA x (ks.foldl (fun m k => removeA k m) m) = none := by
  intro ks
  induction ks with
  | nil => intro m _ hx; simp at hx
  | cons k rest ih =>
    intro m hn hx
    rw [List.foldl_cons]
    by_cases hk : x = k
    · subst hk
      by_cases hr : x ∈ rest
      · exact ih _ (removeA_nodup hn) hr
      · rw [fold_removeA_not_mem x rest _ hr]
        exact lookupA_removeA_self hn
    · have hr : x ∈ rest := by
        rcases List.mem_cons.mp hx with h | h
        · exact absurd h hk
        · exact h
      exact ih _ (removeA_nodup hn) hr

/-! ## Lemmas for the quiz-trigger alias resolution -/

theorem nodup_append_singleton {α : Type} {l : List α} {a : α}
    (hn : l.Nodup) (ha : a ∉ l) : (l ++ [a]).Nodup := by
  rw [List.nodup_append]
  refine ⟨hn, List.nodup_singleton a, ?_⟩
  intro x hx hxa
  rw [List.mem_singleton] at hxa
  subst hxa
  exact ha hx

theorem if_mem_append_nodup (l : List String) (hl : l.Nodup) (a : String) :
    (if a ∈ l then l else l ++ [a]).Nodup := by
  by_cases h : a ∈ l
  · rw [if_pos h]; exact hl
  · rw [if_neg h]; exact nodup_append_singleton hl h

theorem build_candidate_ids_nodup (meeting_id : String) (doc : Option SessionDoc) :
    (build_candidate_ids meeting_id doc).Nodup := by
  cases doc with
  | none => exact List.nodup_singleton _
  | some d =>
    obtain ⟨zoom, mongo⟩ := d
    cases zoom with
    | none =>
      exact if_mem_append_nodup [meeting_id] (List.nodup_singleton _) mongo
    | some z =>
      exact if_mem_append_nodup _
        (if_mem_append_nodup [meeting_id] (List.nodup_singleton _) z) mongo

theorem tagged_cons (rooms : SessionRooms) (i : String) (rest : List String) :
    get_session_participants_by_multiple_ids rooms (i :: rest) =
      (get_session_participants rooms i).map (tagOf i) ++
      get_session_participants_by_multiple_ids rooms rest := by
  simp [get_session_participants_by_multiple_ids]

theorem tagged_sessionId_mem (rooms : SessionRooms) :
    ∀ (ids : List String) (t : TaggedParticipant),
      t ∈ get_session_participants_by_multiple_ids rooms ids → t.sessionId ∈ ids := by
  intro ids
  induction ids with
  | nil => intro t ht; simp [get_session_participants_by_multiple_ids] at ht
  | cons i rest ih =>
    intro t ht
    rw [tagged_cons] at ht
    rcases List.mem_append.mp ht with h | h
    · obtain ⟨info, _, heq⟩ := List.mem_map.mp h
      rw [← heq]
      exact List.mem_cons_self i rest
    · exact List.mem_cons_of_mem _ (ih t h)

theorem mem_tagged_of_mem {rooms : SessionRooms} {i : String}
    {info : ParticipantInfo} (hinfo : info ∈ get_session_participants rooms i) :
    ∀ (ids : List String), i ∈ ids →
      tagOf i info ∈ get_session_participants_by_multiple_ids rooms ids := by
  intro ids
  induction ids with
  | nil => intro h; simp at h
  | cons j rest ih =>
    intro h
    rw [tagged_cons]
    rcases List.mem_cons.mp h with h1 | h1
    · subst h1
      exact List.mem_append_left _ (List.mem_map_of_mem _ hinfo)
    · exact List.mem_append_right _ (ih h1)

theorem countP_tag_list (i k : String) : ∀ (l : List ParticipantInfo),
    (l.map (tagOf i)).countP (fun t => t.sessionId == k) =
      if i = k then l.length else 0 := by
  intro l
  induction l with
  | nil => simp
  | cons a t ih =>
    simp only [List.map_cons, List.countP_cons, ih]
    by_cases h : i = k <;> simp [tagOf, h]

theorem countP_tagged (rooms : SessionRooms) :
    ∀ (ids : List String), ids.Nodup → ∀ k,
      (get_session_participants_by_multiple_ids rooms ids).countP
        (fun t => t.sessionId == k) =
      (if k ∈ ids then (get_session_participants rooms k).length else 0) := by
  intro ids
  induction ids with
  | nil => intro _ k; simp [get_session_participants_by_multiple_ids]
  | cons i rest ih =>
    intro hn k
    rw [tagged_cons, List.countP_append, countP_tag_list,
      ih (List.nodup_cons.mp hn).2 k]
    by_cases hik : i = k
    · subst hik
      have hrest : i ∉ rest := (List.nodup_cons.mp hn).1
      simp [hrest]
    · by_cases hk : k ∈ rest <;> simp [hik, hk, Ne.symm hik]

theorem bumpCount_lookup (j : String) : ∀ (m : AList Nat) (k : String),
    (lookupA k (bumpCount j m)).getD 0 =
      (if j = k then 1 else 0) + (lookupA k m).getD 0 := by
  intro m
  induction m with
  | nil =>
    intro k
    by_cases h : j = k <;> simp [bumpCount, lookupA, h]
  | cons e t ih =>
    intro k
    obtain ⟨k0, c0⟩ := e
    by_cases h0 : k0 = j
    · subst h0
      by_cases hk : k0 = k <;> simp [bumpCount, lookupA, hk] <;> omega
    · by_cases hk : k0 = k
      · subst hk
        have hj : ¬ (j = k0) := fun he => h0 he.symm
        simp [bumpCount, lookupA, h0, hj]
      · simp [bumpCount, lookupA, h0, hk, ih]

theorem keysA_bump_subset2 (j : String) : ∀ (m : AList Nat) (k : String),
    k ∈ keysA (bumpCount j m) → k ∈ keysA m ∨ k = j := by
  intro m
  induction m with
  | nil =>
    intro k hk
    simp [bumpCount, keysA] at hk
    exact Or.inr hk
  | cons e t ih =>
    obtain ⟨k0, c0⟩ := e
    intro k hk
    by_cases h0 : k0 = j
    · subst h0
      simp only [bumpCount, if_pos rfl, keysA, List.map_cons] at hk
      exact Or.inl hk
    · simp only [bumpCount, if_neg h0, keysA, List.map_cons, List.mem_cons] at hk
      rcases hk with hk | hk
      · exact Or.inl (by simp [keysA, hk])
      · rcases ih k hk with h | h
        · exact Or.inl (by simp [keysA]; right; simpa [keysA] using h)
        · exact Or.inr h

theorem bumpCount_nodup {j : String} : ∀ {m : AList Nat},
    (keysA m).Nodup → (keysA (bumpCount j m)).Nodup := by
  intro m
  induction m with
  | nil => intro _; simp [bumpCount, keysA]
  | cons e t ih =>
    obtain ⟨k0, c0⟩ := e
    intro hn
    simp only [keysA, List.map_cons, List.nodup_cons] at hn
    by_cases h0 : k0 = j
    · subst h0
      simp only [bumpCount, eq_self_iff_true, if_true, keysA, List.map_cons,
        List.nodup_cons]
      exact hn
    · simp only [bumpCount, if_neg h0, keysA, List.map_cons, List.nodup_cons]
      refine ⟨?_, ih hn.2⟩
      intro hmem
      rcases keysA_bump_subset2 j t k0 hmem with h | h
      · exact hn.1 h
      · exact h0 h

theorem build_counts_lookup_aux :
    ∀ (ps : List TaggedParticipant) (m : AList Nat) (k : String),
      (lookupA k (ps.foldl (fun m p => bumpCount p.sessionId m) m)).getD 0 =
        (lookupA k m).getD 0 + ps.countP (fun t => t.sessionId == k) := by
  intro ps
  induction ps with
  | nil => intro m k; simp
  | cons t rest ih =>
    intro m k
    rw [List.foldl_cons, ih, bumpCount_lookup, List.countP_cons]
    by_cases h : t.sessionId = k <;> simp [h] <;> omega

theorem build_counts_lookup (ps : List TaggedParticipant) (k : String) :
    (lookupA k (build_participant_counts ps)).getD 0 =
      ps.countP (fun t => t.sessionId == k) := by
  unfold build_participant_counts
  rw [build_counts_lookup_aux]
  simp [lookupA]

theorem build_counts_nodup_aux :
    ∀ (ps : List TaggedParticipant) (m : AList Nat), (keysA m).Nodup →
      (keysA (ps.foldl (fun m p => bumpCount p.sessionId m) m)).Nodup := by
  intro ps
  induction ps with
  | nil => intro m hn; exact hn
  | cons t rest ih => intro m hn; exact ih _ (bumpCount_nodup hn)

theorem build_counts_nodup (ps : List TaggedParticipant) :
    (keysA (build_participant_counts ps)).Nodup :=
  build_counts_nodup_aux ps [] (by simp [keysA])

theorem build_counts_keys_aux :
    ∀ (ps : List TaggedParticipant) (m : AList Nat) (k : String),
      k ∈ keysA (ps.foldl (fun m p => bumpCount p.sessionId m) m) →
      k ∈ keysA m ∨ ∃ t ∈ ps, t.sessionId = k := by
  intro ps
  induction ps with
  | nil => intro m k hk; exact Or.inl hk
  | cons t rest ih =>
    intro m k hk
    rw [List.foldl_cons] at hk
    rcases ih _ _ hk with h | h
    · rcases keysA_bump_subset2 _ _ k h with h2 | h2
      · exact Or.inl h2
      · exact Or.inr ⟨t, List.mem_cons_self _ _, h2.symm⟩
    · obtain ⟨t0, ht0, hs⟩ := h
      exact Or.inr ⟨t0, List.mem_cons_of_mem _ ht0, hs⟩

theorem build_counts_keys {ps : List TaggedParticipant} {k : String}
    (hk : k ∈ keysA (build_participant_counts ps)) :
    ∃ t ∈ ps, t.sessionId = k := by
  rcases build_counts_keys_aux ps [] k hk with h | h
  · simp [keysA] at h
  · exact h

theorem argmax_first_eq_none {m : AList Nat} :
    argmax_first m = none ↔ m = [] := by
  cases m with
  | nil => simp [argmax_first]
  | cons e t =>
    obtain ⟨k, c⟩ := e
    constructor
    · intro h
      exfalso
      simp only [argmax_first] at h
      cases h2 : argmax_first t with
      | none =>
        rw [h2] at h
        simp only at h
        exact Option.noConfusion h
      | some kc =>
        obtain ⟨k', c'⟩ := kc
        rw [h2] at h
        simp only at h
        by_cases hgt : c' > c
        · rw [if_pos hgt] at h; exact Option.noConfusion h
        · rw [if_neg hgt] at h; exact Option.noConfusion h
    · intro h; exact List.noConfusion h

theorem argmax_first_spec :
    ∀ (m : AList Nat) (k0 : String) (c0 : Nat),
      argmax_first m = some (k0, c0) →
      (k0, c0) ∈ m ∧ ∀ kc ∈ m, kc.2 ≤ c0 := by
  intro m
  induction m with
  | nil => intro k0 c0 h; exact Option.noConfusion h
  | cons e t ih =>
    obtain ⟨k, c⟩ := e
    intro k0 c0 h
    simp only [argmax_first] at h
    cases h2 : argmax_first t with
    | none =>
      rw [h2] at h
      simp only at h
      have he := Option.some.inj h
      have hk : k = k0 := congrArg Prod.fst he
      have hc : c = c0 := congrArg Prod.snd he
      subst hk; subst hc
      have ht : t = [] := argmax_first_eq_none.mp h2
      subst ht
      refine ⟨List.mem_cons_self _ _, ?_⟩
      intro kc hkc
      rcases List.mem_cons.mp hkc with h3 | h3
      · rw [h3]
      · simp at h3
    | some kc' =>
      obtain ⟨k', c'⟩ := kc'
      rw [h2] at h
      simp only at h
      obtain ⟨hmem', hbound'⟩ := ih k' c' h2
      by_cases hgt : c' > c
      · rw [if_pos hgt] at h
        have he := Option.some.inj h
        have hk : k' = k0 := congrArg Prod.fst he
        have hc : c' = c0 := congrArg Prod.snd he
        subst hk; subst hc
        refine ⟨List.mem_cons_of_mem _ hmem', ?_⟩
        intro kc hkc
        rcases List.mem_cons.mp hkc with h3 | h3
        · rw [h3]; exact Nat.le_of_lt hgt
        · exact hbound' kc h3
      · rw [if_neg hgt] at h
        have he := Option.some.inj h
        have hk : k = k0 := congrArg Prod.fst he
        have hc : c = c0 := congrArg Prod.snd he
        subst hk; subst hc
        refine ⟨List.mem_cons_self _ _, ?_⟩
        intro kc hkc
        rcases List.mem_cons.mp hkc with h3 | h3
        · rw [h3]
        · exact Nat.le_trans (hbound' kc h3) (Nat.le_of_not_lt hgt)

/-! ## Send and delivery-loop lemmas -/

theorem joinedOk_status {p : Participant} (h : joinedOk p = true) :
    p.status = "joined" := by
  by_cases hs : p.status = "joined"
  · exact hs
  · simp [joinedOk, hs] at h

theorem joinedOk_ws {p : Participant} (h : joinedOk p = true) :
    ∃ w, p.websocket = some w ∧ w.sendOk = true := by
  have hs := joinedOk_status h
  cases hw : p.websocket with
  | none => simp [joinedOk, transportOk, hs, hw] at h
  | some w =>
    refine ⟨w, rfl, ?_⟩
    simpa [joinedOk, transportOk, hs, hw] using h

theorem send_spec_none {rooms : SessionRooms} {A X : String}
    (hX : lookupRoomEntry rooms A X = none) (now : Nat) :
    send_to_student_in_session rooms A X now = (rooms, false) := by
  simp [send_to_student_in_session, hX]

theorem send_spec_notjoined {rooms : SessionRooms} {A X : String} {p : Participant}
    (hX : lookupRoomEntry rooms A X = some p) (hst : p.status ≠ "joined") (now : Nat) :
    send_to_student_in_session rooms A X now = (rooms, false) := by
  simp [send_to_student_in_session, hX, hst]

theorem send_spec_nows {rooms : SessionRooms} {A X : String} {p : Participant}
    (hX : lookupRoomEntry rooms A X = some p) (hst : p.status = "joined")
    (hw : p.websocket = none) (now : Nat) :
    send_to_student_in_session rooms A X now = (rooms, false) := by
  simp [send_to_student_in_session, hX, hst, hw]

theorem send_spec_ok {rooms : SessionRooms} {A X : String} {p : Participant} {w : WS}
    (hX : lookupRoomEntry rooms A X = some p) (hst : p.status = "joined")
    (hw : p.websocket = some w) (hwok : w.sendOk = true) (now : Nat) :
    send_to_student_in_session rooms A X now = (rooms, true) := by
  simp [send_to_student_in_session, hX, hst, hw, hwok]

theorem send_spec_fail {rooms : SessionRooms} {A X : String} {p : Participant} {w : WS}
    (hX : lookupRoomEntry rooms A X = some p) (hst : p.status = "joined")
    (hw : p.websocket = some w) (hwok : w.sendOk = false) (now : Nat) :
    send_to_student_in_session rooms A X now =
      ((leave_session_room rooms A X now).1, false) := by
  simp [send_to_student_in_session, hX, hst, hw, hwok]

theorem send_succeeds {rooms : SessionRooms} {A X : String} {p : Participant}
    (hX : lookupRoomEntry rooms A X = some p) (hok : joinedOk p = true) (now : Nat) :
    send_to_student_in_session rooms A X now = (rooms, true) := by
  obtain ⟨w, hw, hwok⟩ := joinedOk_ws hok
  exact send_spec_ok hX (joinedOk_status hok) hw hwok now

theorem send_preserves_entry {rooms : SessionRooms} {A X : String} {p : Participant}
    (hX : lookupRoomEntry rooms A X = some p) (hok : joinedOk p = true)
    (sid2 s2 : String) (now : Nat) :
    lookupRoomEntry (send_to_student_in_session rooms sid2 s2 now).1 A X = some p := by
  by_cases hcase : sid2 = A ∧ s2 = X
  · obtain ⟨h1, h2⟩ := hcase
    subst h1; subst h2
    rw [send_succeeds hX hok now]
    exact hX
  · cases h : lookupRoomEntry rooms sid2 s2 with
    | none => rw [send_spec_none h now]; exact hX
    | some q =>
      by_cases hst : q.status = "joined"
      · cases hw : q.websocket with
        | none => rw [send_spec_nows h hst hw now]; exact hX
        | some w =>
          cases hwok : w.sendOk with
          | true => rw [send_spec_ok h hst hw hwok now]; exact hX
          | false =>
            rw [send_spec_fail h hst hw hwok now]
            show lookupRoomEntry (leave_session_room rooms sid2 s2 now).1 A X = some p
            rw [leave_entry_other now (fun hc => hcase ⟨hc.1.symm, hc.2.symm⟩)]
            exact hX
      · rw [send_spec_notjoined h hst now]; exact hX

theorem triggerSendStep_preserves_entry {A X : String} {p : Participant}
    (hok : joinedOk p = true) (now : Nat) (eff : String)
    (acc : SessionRooms × Nat × List String) (t : TaggedParticipant)
    (hent : lookupRoomEntry acc.1 A X = some p) :
    lookupRoomEntry (triggerSendStep now eff acc t).1 A X = some p := by
  have h1 := send_preserves_entry hent hok t.sessionId t.studentId now
  have h2 := send_preserves_entry h1 hok eff t.studentId now
  unfold triggerSendStep
  dsimp only
  split
  · split
    · exact h2
    · exact h2
  · split
    · exact h1
    · exact h1

theorem triggerSendStep_hit {A X : String} {p : Participant}
    (hok : joinedOk p = true) (now : Nat) (eff : String)
    (acc : SessionRooms × Nat × List String) (t : TaggedParticipant)
    (ht1 : t.sessionId = A) (ht2 : t.studentId = X)
    (hent : lookupRoomEntry acc.1 A X = some p) :
    triggerSendStep now eff acc t = (acc.1, acc.2.1 + 1, acc.2.2 ++ [t.studentId]) := by
  unfold triggerSendStep
  rw [ht1, ht2, send_succeeds hent hok now]
  simp

theorem foldSend_suffix (now : Nat) (eff : String) :
    ∀ (l : List TaggedParticipant) (acc : SessionRooms × Nat × List String),
      ∃ tail, (l.foldl (triggerSendStep now eff) acc).2.2 = acc.2.2 ++ tail := by
  intro l
  induction l with
  | nil => intro acc; exact ⟨[], by simp⟩
  | cons t rest ih =>
    intro acc
    rw [List.foldl_cons]
    have hstep : ∃ s0, (triggerSendStep now eff acc t).2.2 = acc.2.2 ++ s0 := by
      unfold triggerSendStep
      dsimp only
      split
      · split
        · exact ⟨[t.studentId], rfl⟩
        · exact ⟨[], by simp⟩
      · split
        · exact ⟨[t.studentId], rfl⟩
        · exact ⟨[], by simp⟩
    obtain ⟨s0, hs0⟩ := hstep
    obtain ⟨tail, htail⟩ := ih (triggerSendStep now eff acc t)
    exact ⟨s0 ++ tail, by rw [htail, hs0, List.append_assoc]⟩

theorem foldSend_mem (now : Nat) (eff : String) (A X : String) (p : Participant)
    (hok : joinedOk p = true) :
    ∀ (l : List TaggedParticipant) (acc : SessionRooms × Nat × List String),
      lookupRoomEntry acc.1 A X = some p →
      (∃ t ∈ l, t.sessionId = A ∧ t.studentId = X) →
      X ∈ (l.foldl (triggerSendStep now eff) acc).2.2 := by
  intro l
  induction l with
  | nil =>
    intro acc _ hex
    obtain ⟨t, ht, _⟩ := hex
    simp at ht
  | cons t rest ih =>
    intro acc hent hex
    rw [List.foldl_cons]
    by_cases hhead : t.sessionId = A ∧ t.studentId = X
    · rw [triggerSendStep_hit hok now eff acc t hhead.1 hhead.2 hent]
      obtain ⟨tail, htail⟩ :=
        foldSend_suffix now eff rest (acc.1, acc.2.1 + 1, acc.2.2 ++ [t.studentId])
      rw [htail]
      simp [hhead.2]
    · have hex2 : ∃ t0 ∈ rest, t0.sessionId = A ∧ t0.studentId = X := by
        obtain ⟨t0, ht0, hp0⟩ := hex
        rcases List.mem_cons.mp ht0 with h | h
        · subst h; exact absurd hp0 hhead
        · exact ⟨t0, h, hp0⟩
      exact ih _ (triggerSendStep_preserves_entry hok now eff acc t hent) hex2

theorem trigger_question_spec {rooms : SessionRooms} {meeting_id : String}
    {doc : Option SessionDoc} (now : Nat)
    (hne1 : (get_session_participants_by_multiple_ids rooms
      (build_candidate_ids meeting_id doc)).isEmpty = false)
    (hne2 : (trigger_students rooms meeting_id doc).isEmpty = false) :
    trigger_question rooms meeting_id doc now =
      ((trigger_final rooms meeting_id doc now).1,
       { success := true,
         effectiveId := trigger_effective rooms meeting_id doc,
         wsSentCount := (trigger_final rooms meeting_id doc now).2.1,
         sentStudentIds := (trigger_final rooms meeting_id doc now).2.2 }) := by
  unfold trigger_question
  dsimp only
  rw [hne1, hne2]
  simp

theorem trigger_effective_max (rooms : SessionRooms) (meeting_id : String)
    (doc : Option SessionDoc)
    (hne : get_session_participants_by_multiple_ids rooms
      (build_candidate_ids meeting_id doc) ≠ []) :
    trigger_effective rooms meeting_id doc ∈ build_candidate_ids meeting_id doc ∧
    ∀ k ∈ build_candidate_ids meeting_id doc,
      (get_session_participants rooms k).length ≤
        (get_session_participants rooms
          (trigger_effective rooms meeting_id doc)).length := by
  have hnodup := build_candidate_ids_nodup meeting_id doc
  obtain ⟨t0, ht0⟩ := List.exists_mem_of_ne_nil _ hne
  have hcpos : 0 < (get_session_participants_by_multiple_ids rooms
      (build_candidate_ids meeting_id doc)).countP
        (fun t => t.sessionId == t0.sessionId) :=
    List.countP_pos_iff.mpr ⟨t0, ht0, by simp⟩
  have hcne : build_participant_counts (get_session_participants_by_multiple_ids
      rooms (build_candidate_ids meeting_id doc)) ≠ [] := by
    intro h
    have h2 := build_counts_lookup (get_session_participants_by_multiple_ids
      rooms (build_candidate_ids meeting_id doc)) t0.sessionId
    rw [h] at h2
    simp [lookupA] at h2
    omega
  cases hargmax : argmax_first (build_participant_counts
      (get_session_participants_by_multiple_ids rooms
        (build_candidate_ids meeting_id doc))) with
  | none => exact absurd (argmax_first_eq_none.mp hargmax) hcne
  | some kc =>
    obtain ⟨k0, c0⟩ := kc
    obtain ⟨hmem, hbound⟩ := argmax_first_spec _ _ _ hargmax
    have heff : trigger_effective rooms meeting_id doc = k0 := by
      unfold trigger_effective
      rw [hargmax]
    have hk0keys : k0 ∈ keysA (build_participant_counts
        (get_session_participants_by_multiple_ids rooms
          (build_candidate_ids meeting_id doc))) :=
      List.mem_map.mpr ⟨(k0, c0), hmem, rfl⟩
    obtain ⟨t1, ht1, hts⟩ := build_counts_keys hk0keys
    have hk0ids : k0 ∈ build_candidate_ids meeting_id doc :=
      hts ▸ tagged_sessionId_mem rooms _ t1 ht1
    have hlk : lookupA k0 (build_participant_counts
        (get_session_participants_by_multiple_ids rooms
          (build_candidate_ids meeting_id doc))) = some c0 :=
      lookupA_of_mem_nodup (build_counts_nodup _) hmem
    have hc0e : c0 = (get_session_participants_by_multiple_ids rooms
        (build_candidate_ids meeting_id doc)).countP
          (fun t => t.sessionId == k0) := by
      have h2 := build_counts_lookup (get_session_participants_by_multiple_ids
        rooms (build_candidate_ids meeting_id doc)) k0
      rw [hlk] at h2
      simpa using h2
    have hjk0 : (get_session_participants_by_multiple_ids rooms
        (build_candidate_ids meeting_id doc)).countP
          (fun t => t.sessionId == k0) =
        (get_session_participants rooms k0).length := by
      rw [countP_tagged rooms _ hnodup k0]
      simp [hk0ids]
    rw [heff]
    refine ⟨hk0ids, ?_⟩
    intro k hk
    have h1 : (get_session_participants_by_multiple_ids rooms
        (build_candidate_ids meeting_id doc)).countP
          (fun t => t.sessionId == k) =
        (get_session_participants rooms k).length := by
      rw [countP_tagged rooms _ hnodup k]
      simp [hk]
    have h2 : (get_session_participants_by_multiple_ids rooms
        (build_candidate_ids meeting_id doc)).countP
          (fun t => t.sessionId == k) ≤ c0 := by
      have h3 := build_counts_lookup (get_session_participants_by_multiple_ids
        rooms (build_candidate_ids meeting_id doc)) k
      cases hlkk : lookupA k (build_participant_counts
          (get_session_participants_by_multiple_ids rooms
            (build_candidate_ids meeting_id doc))) with
      | none =>
        rw [hlkk] at h3
        simp at h3
        omega
      | some v =>
        rw [hlkk] at h3
        simp at h3
        have h4 := hbound (k, v) (mem_of_lookupA hlkk)
        simp at h4
        omega
    omega

/-! ## Claim theorems -/

/-- C9: the scheduler's expected-question-count-per-session table, written
as subtraction expressions, evaluates to the single integers
Passive = -5, Moderate = -4, Active = -2, not to min/max ranges. -/
theorem expected_counts_are_single_integers :
    EXPECTED_COUNTS "Passive" = some (-5) ∧
    EXPECTED_COUNTS "Moderate" = some (-4) ∧
    EXPECTED_COUNTS "Active" = some (-2) := by
  refine ⟨?_, ?_, ?_⟩ <;> decide

/-- C2: broadcast fault isolation. On a missing room, `broadcast_to_session`
returns 0 and the state unchanged, without raising. On an existing room it
attempts delivery to each joined participant independently, returning the
number of successful sends (the count of joined participants whose
transport accepts the send), and every joined participant whose transport
raises is removed from the joined view: a subsequent
`get_session_participants` of that room no longer contains them. The send
exception itself is never propagated (the operation is total). -/
theorem broadcast_to_session_fault_isolation (rooms : SessionRooms) (sid : String)
    (now : Nat) :
    (lookupA sid rooms = none → broadcast_to_session rooms sid now = (rooms, 0)) ∧
    (∀ room, lookupA sid rooms = some room → (keysA room).Nodup →
      (broadcast_to_session rooms sid now).2 =
        room.countP (fun e => joinedOk e.2) ∧
      (∀ stud p, lookupA stud room = some p → joinedFails p = true →
        ∀ info ∈ get_session_participants (broadcast_to_session rooms sid now).1 sid,
          info.studentId ≠ stud)) := by
  constructor
  · intro hr
    simp only [broadcast_to_session, hr]
  · intro room hr hn
    have hb := broadcast_spec_some now hr
    constructor
    · rw [hb]
    · intro stud p hp hpf info hinfo
      have hmem : (stud, p) ∈ room := mem_of_lookupA hp
      have hdead : stud ∈ (room.filter (fun e => joinedFails e.2)).map Prod.fst :=
        List.mem_map_of_mem Prod.fst (List.mem_filter.mpr ⟨hmem, hpf⟩)
      have hentry : lookupRoomEntry rooms sid stud = some p := by
        simp only [lookupRoomEntry, hr, hp]
      obtain ⟨q, hq, hqs⟩ := applyLeaves_entry_of_mem sid now
        ((room.filter (fun e => joinedFails e.2)).map Prod.fst) rooms stud p hentry hdead
      obtain ⟨room2, hr2, hk2⟩ := applyLeaves_room_keys sid now
        ((room.filter (fun e => joinedFails e.2)).map Prod.fst) rooms room hr
      have hn2 : (keysA room2).Nodup := by rw [hk2]; exact hn
      have hq2 : lookupA stud room2 = some q := by
        simp only [lookupRoomEntry_eq, hr2, Option.some_bind] at hq
        exact hq
      have hqleft : q.status ≠ "joined" := by rw [hqs]; decide
      rw [hb] at hinfo
      exact not_in_participants_of_left hr2 hn2 hq2 hqleft info hinfo

/-- Witness for C2: in a room of three joined participants where exactly
the second one's transport raises, the broadcast returns sentCount 2 and
the failed participant no longer appears among the joined participants. -/
theorem broadcast_to_session_fault_isolation_witness :
    (broadcast_to_session rooms3 "r" 5).2 = 2 ∧
    (∀ info ∈ get_session_participants (broadcast_to_session rooms3 "r" 5).1 "r",
      info.studentId ≠ "s2") := by
  have h := (broadcast_to_session_fault_isolation rooms3 "r" 5).2 room3
    (by decide) (by decide)
  refine ⟨?_, h.2 "s2" pSendFail (by decide) (by decide)⟩
  rw [h.1]; decide

/-- C8: participants whose status is not "joined" receive nothing from a
broadcast and their entries are left completely unchanged (still present,
same record, still left), while the sent count only counts joined
participants with a working transport. -/
theorem broadcast_to_session_preserves_left (rooms : SessionRooms) (sid : String)
    (now : Nat) (room : Room) (stud : String) (p : Participant)
    (hr : lookupA sid rooms = some room) (hn : (keysA room).Nodup)
    (hp : lookupA stud room = some p) (hleft : p.status ≠ "joined") :
    lookupRoomEntry (broadcast_to_session rooms sid now).1 sid stud = some p ∧
    (broadcast_to_session rooms sid now).2 = room.countP (fun e => joinedOk e.2) := by
  have hb := broadcast_spec_some now hr
  constructor
  · rw [hb]
    have hnd : stud ∉ (room.filter (fun e => joinedFails e.2)).map Prod.fst := by
      intro hmem
      obtain ⟨⟨s, q⟩, hq, hfst⟩ := List.mem_map.mp hmem
      obtain ⟨hqmem, hqf⟩ := List.mem_filter.mp hq
      have hseq : s = stud := hfst
      subst hseq
      have h2 := lookupA_of_mem_nodup hn hqmem
      rw [hp] at h2
      have hpq : p = q := Option.some.inj h2
      have hqj : q.status = "joined" := status_eq_of_joinedFails hqf
      exact hleft (by rw [hpq]; exact hqj)
    have h3 := applyLeaves_entry_of_not_mem sid now _ rooms sid stud
      (fun hc => hnd hc.2)
    rw [h3]
    simp only [lookupRoomEntry, hr, hp]
  · rw [hb]

/-- Witness for C8: room "42" with s1 joined and s2 left yields sentCount 1
and s2's entry untouched, still with status "left". -/
theorem broadcast_to_session_preserves_left_witness :
    lookupRoomEntry (broadcast_to_session rooms42 "42" 9).1 "42" "s2" = some pLeft2 ∧
    (broadcast_to_session rooms42 "42" 9).2 = 1 ∧ pLeft2.status = "left" := by
  have h := broadcast_to_session_preserves_left rooms42 "42" 9 room42 "s2" pLeft2
    (by decide) (by decide) (by decide) (by decide)
  exact ⟨h.1, by rw [h.2]; decide, by decide⟩

/-- C3: joining a session room is idempotent per (roomKey, studentId): when
the student already has an entry (of any status, including a previous
"left"), a join with a new transport never raises (the operation is
total), keeps the room's participant-map size unchanged, and replaces the
entry with a fresh one holding the new transport and status "joined". -/
theorem join_session_room_idempotent (rooms : SessionRooms) (sid stud : String)
    (ws2 : WS) (name email : Option String) (now : Nat) (room : Room)
    (p : Participant) (hr : lookupA sid rooms = some room)
    (hp : lookupA stud room = some p) :
    ∃ room2,
      lookupA sid (join_session_room rooms ws2 sid stud name email now).1 =
        some room2 ∧
      room2.length = room.length ∧
      lookupA stud room2 = some (joinParticipant ws2 stud name email now) ∧
      (joinParticipant ws2 stud name email now).websocket = some ws2 ∧
      (joinParticipant ws2 stud name email now).status = "joined" ∧
      (join_session_room rooms ws2 sid stud name email now).2.participantCount =
        room.length := by
  have hb := join_spec hr ws2 stud name email now
  refine ⟨updateA stud (joinParticipant ws2 stud name email now) room,
    ?_, ?_, ?_, rfl, rfl, ?_⟩
  · rw [hb]
    exact lookupA_updateA_self _ _ _
  · exact length_updateA_of_lookup hp _
  · exact lookupA_updateA_self _ _ _
  · rw [hb]
    exact length_updateA_of_lookup hp _

/-- Witness for C3: re-joining student x (previously left) with a new
transport keeps the room at one entry with the fresh joined record. -/
theorem join_session_room_idempotent_witness :
    ∃ room2,
      lookupA "s" (join_session_room roomsJ ⟨7, true⟩ "s" "x" none none 3).1 =
        some room2 ∧
      room2.length = 1 ∧
      lookupA "x" room2 = some (joinParticipant ⟨7, true⟩ "x" none none 3) ∧
      (joinParticipant ⟨7, true⟩ "x" none none 3).websocket = some (⟨7, true⟩ : WS) ∧
      (joinParticipant ⟨7, true⟩ "x" none none 3).status = "joined" ∧
      (join_session_room roomsJ ⟨7, true⟩ "s" "x" none none 3).2.participantCount = 1 := by
  exact join_session_room_idempotent roomsJ "s" "x" ⟨7, true⟩ none none 3
    [("x", pOldX)] pOldX (by decide) (by decide)

/-- Counterexample to C5 as stated: for a schedule with questionsAnswered
equal to 0, `get_student_stats` does not report the accuracy as
undefined/null/absent: it returns a stats record whose accuracy is the
number 0. -/
theorem get_student_stats_zero_accuracy_cex :
    (get_student_stats stStats "x").map (fun s => s.accuracy) = some 0 ∧
    (get_student_stats stStats "x").map (fun s => s.questions_answered) = some 0 ∧
    get_student_stats stStats "x" ≠ none := by
  refine ⟨?_, ?_, ?_⟩ <;> decide

/-- C5 (amended): for a known student, `get_student_stats` always returns a
stats record whose accuracy field is the number 0 when questionsAnswered
is 0 (not null/absent, though also never NaN and never raising), and
equals questionsCorrect / questionsAnswered when questionsAnswered > 0. -/
theorem get_student_stats_accuracy (st : SchedulerState) (stud : String)
    (sch : Schedule) (hp : lookupA stud st.student_schedules = some sch) :
    ∃ s, get_student_stats st stud = some s ∧
      (sch.questions_answered = 0 → s.accuracy = 0) ∧
      (0 < sch.questions_answered →
        s.accuracy = (sch.questions_correct : ℚ) / (sch.questions_answered : ℚ)) := by
  unfold get_student_stats
  rw [hp]
  refine ⟨_, rfl, ?_, ?_⟩
  · intro h0
    simp [h0]
  · intro hpos
    simp [hpos]

/-- Witness for C5 (amended): student w has 3 correct answers out of 4, and
the reported accuracy is 3/4. -/
theorem get_student_stats_accuracy_witness :
    get_student_stats stStats "w" ≠ none ∧
    (get_student_stats stStats "w").map (fun s => s.accuracy) = some (3 / 4 : ℚ) := by
  obtain ⟨s, hs, _, hacc⟩ :=
    get_student_stats_accuracy stStats "w" schedAnswered (by decide)
  constructor
  · rw [hs]
    exact fun h => Option.noConfusion h
  · rw [hs]
    simp only [Option.map_some']
    rw [hacc (by decide)]
    norm_num [schedAnswered]

/-- C6: stopping a session deletes the session and exactly the schedules
whose session_id matches it: every such student becomes unknown to
`get_student_stats`, every schedule of a different session is unchanged,
and the session itself is gone. -/
theorem stop_session_cascade (st : SchedulerState) (S : String) (sd : SessionData)
    (hS : lookupA S st.active_sessions = some sd)
    (hn : (keysA st.student_schedules).Nodup)
    (hna : (keysA st.active_sessions).Nodup) :
    (∀ x sch, lookupA x st.student_schedules = some sch → sch.session_id = S →
      get_student_stats (stop_session st S) x = none) ∧
    (∀ x sch, lookupA x st.student_schedules = some sch → sch.session_id ≠ S →
      lookupA x (stop_session st S).student_schedules = some sch) ∧
    lookupA S (stop_session st S).active_sessions = none := by
  have hb : stop_session st S =
      { active_sessions := removeA S st.active_sessions,
        student_schedules :=
          ((st.student_schedules.filter (fun e => e.2.session_id == S)).map
            Prod.fst).foldl (fun m k => removeA k m) st.student_schedules } := by
    simp only [stop_session, hS]
  refine ⟨?_, ?_, ?_⟩
  · intro x sch hx hxs
    have hxmem : x ∈ (st.student_schedules.filter
        (fun e => e.2.session_id == S)).map Prod.fst :=
      List.mem_map.mpr ⟨(x, sch),
        List.mem_filter.mpr ⟨mem_of_lookupA hx, by simp [hxs]⟩, rfl⟩
    have hnone := fold_removeA_mem x _ st.student_schedules hn hxmem
    rw [hb]
    simp only [get_student_stats, hnone]
  · intro x sch hx hxs
    have hxmem : x ∉ (st.student_schedules.filter
        (fun e => e.2.session_id == S)).map Prod.fst := by
      intro hmem
      obtain ⟨⟨s, sch'⟩, hfil, hfst⟩ := List.mem_map.mp hmem
      obtain ⟨hmem2, hsid⟩ := List.mem_filter.mp hfil
      have hseq : s = x := hfst
      subst hseq
      have h2 := lookupA_of_mem_nodup hn hmem2
      rw [hx] at h2
      have h3 : sch = sch' := Option.some.inj h2
      have h4 : sch'.session_id = S := by simpa using hsid
      exact hxs (by rw [h3]; exact h4)
    rw [hb]
    have := fold_removeA_not_mem x _ st.student_schedules hxmem
    rw [this, hx]
  · rw [hb]
    exact lookupA_removeA_self hna

/-- Witness for C6: a session S with students s1 and s2; stopping S makes
both unknown to get_student_stats and removes the session. -/
theorem stop_session_cascade_witness :
    get_student_stats (stop_session stTwoStudents "S") "s1" = none ∧
    get_student_stats (stop_session stTwoStudents "S") "s2" = none ∧
    lookupA "S" (stop_session stTwoStudents "S").active_sessions = none := by
  have h := stop_session_cascade stTwoStudents "S"
    { start_time := 0, students := [("s1", "Moderate"), ("s2", "Moderate")],
      questions_sent := 0 }
    (by decide) (by decide) (by decide)
  exact ⟨h.1 "s1" (schedModerate "S") (by decide) rfl,
         h.1 "s2" (schedModerate "S") (by decide) rfl, h.2.2⟩

theorem INTERVALS_bounds {l : String} {mn mx : Nat}
    (h : INTERVALS l = some (mn, mx)) : mn ≤ mx := by
  unfold INTERVALS at h
  split_ifs at h <;> simp_all <;> omega

/-- Counterexample to C4 as stated: upper bounds are not exclusive. With
the legitimate randint behaviour that returns the upper bound of the
range, addStudent for a Passive student stores a delay of exactly 300
seconds, and the claimed strict bound 300 < 300 is false. -/
theorem add_student_delay_hits_upper_bound :
    randintContract rngHi ∧
    ((add_student rngHi 0 emptySchedulerState "S" "x" "Passive").bind
      (fun st => (lookupA "x" st.student_schedules).map
        (fun sch => sch.next_question_time))) = some 300 ∧
    ¬ (300 < 300) := by
  refine ⟨fun a b h => ⟨h, le_refl b⟩, ?_, by omega⟩
  decide

/-- C4 (amended): every delay drawn by addStudent, markQuestionSent and
recordAnswer (update_student_engagement) lies within the level's range
with inclusive lower AND inclusive upper bound (Python's random.randint
includes both endpoints): Passive [120,300], Moderate [300,480], Active
[600,900], for the level in force at the time of the draw. -/
theorem schedule_delay_within_closed_bounds (rng : Nat → Nat → Nat)
    (hrng : randintContract rng) (now : Nat) :
    (∀ st sid stud lvl mn mx st',
      INTERVALS lvl = some (mn, mx) →
      add_student rng now st sid stud lvl = some st' →
      ∃ sch, lookupA stud st'.student_schedules = some sch ∧
        now + mn ≤ sch.next_question_time ∧ sch.next_question_time ≤ now + mx) ∧
    (∀ st stud sch0 mn mx st',
      lookupA stud st.student_schedules = some sch0 →
      INTERVALS sch0.engagement_level = some (mn, mx) →
      mark_question_sent rng now st stud = some st' →
      ∃ sch, lookupA stud st'.student_schedules = some sch ∧
        now + mn ≤ sch.next_question_time ∧ sch.next_question_time ≤ now + mx) ∧
    (∀ pr st stud ic rt rtt qd sch0 st',
      lookupA stud st.student_schedules = some sch0 →
      update_student_engagement pr rng now st stud ic rt rtt qd = some st' →
      ∃ sch mn mx, lookupA stud st'.student_schedules = some sch ∧
        INTERVALS sch.engagement_level = some (mn, mx) ∧
        now + mn ≤ sch.next_question_time ∧ sch.next_question_time ≤ now + mx) := by
  refine ⟨?_, ?_, ?_⟩
  · intro st sid stud lvl mn mx st' hI hadd
    obtain ⟨hlo, hhi⟩ := hrng mn mx (INTERVALS_bounds hI)
    unfold add_student at hadd
    rw [hI] at hadd
    simp only at hadd
    cases hsd : lookupA sid
        (if (lookupA sid st.active_sessions).isSome = true then st
         else start_session st sid now).active_sessions with
    | none => rw [hsd] at hadd; exact Option.noConfusion hadd
    | some sd =>
      rw [hsd] at hadd
      simp only at hadd
      have hst' := Option.some.inj hadd
      rw [← hst']
      refine ⟨_, lookupA_updateA_self _ _ _, ?_, ?_⟩ <;> simp <;> omega
  · intro st stud sch0 mn mx st' hp hI hmark
    obtain ⟨hlo, hhi⟩ := hrng mn mx (INTERVALS_bounds hI)
    unfold mark_question_sent at hmark
    rw [hp] at hmark
    simp only at hmark
    rw [show INTERVALS sch0.engagement_level = some (mn, mx) from hI] at hmark
    simp only at hmark
    cases hsd : lookupA sch0.session_id st.active_sessions with
    | none =>
      rw [hsd] at hmark
      simp only at hmark
      have hst' := Option.some.inj hmark
      rw [← hst']
      refine ⟨_, lookupA_updateA_self _ _ _, ?_, ?_⟩ <;> simp <;> omega
    | some sd =>
      rw [hsd] at hmark
      simp only at hmark
      have hst' := Option.some.inj hmark
      rw [← hst']
      refine ⟨_, lookupA_updateA_self _ _ _, ?_, ?_⟩ <;> simp <;> omega
  · intro pr st stud ic rt rtt qd sch0 st' hp hupd
    unfold update_student_engagement at hupd
    rw [hp] at hupd
    simp only at hupd
    cases hI : INTERVALS
        (predict_from_system_data pr ic rt rtt qd sch0.last_network_quality).label with
    | none =>
      rw [hI] at hupd
      exact Option.noConfusion hupd
    | some mnmx =>
      obtain ⟨mn, mx⟩ := mnmx
      rw [hI] at hupd
      simp only at hupd
      obtain ⟨hlo, hhi⟩ := hrng mn mx (INTERVALS_bounds hI)
      cases hsd : lookupA sch0.session_id st.active_sessions with
      | none =>
        rw [hsd] at hupd
        simp only at hupd
        have hst' := Option.some.inj hupd
        rw [← hst']
        refine ⟨_, mn, mx, lookupA_updateA_self _ _ _, ?_, ?_, ?_⟩
        · simpa using hI
        · simp; omega
        · simp; omega
      | some sd =>
        rw [hsd] at hupd
        simp only at hupd
        have hst' := Option.some.inj hupd
        rw [← hst']
        refine ⟨_, mn, mx, lookupA_updateA_self _ _ _, ?_, ?_, ?_⟩
        · simpa using hI
        · simp; omega
        · simp; omega

/-- Witness for C4 (amended): with the lower-bound randint behaviour,
adding a Passive student at time 0 stores a next-eligible time within
[0+120, 0+300]. -/
theorem schedule_delay_within_closed_bounds_witness :
    ∃ sch, lookupA "x" stAddedPassive.student_schedules = some sch ∧
      0 + 120 ≤ sch.next_question_time ∧ sch.next_question_time ≤ 0 + 300 := by
  exact (schedule_delay_within_closed_bounds rngLo
      (fun a b h => ⟨le_refl a, h⟩) 0).1
    emptySchedulerState "S" "x" "Passive" 120 300 stAddedPassive
    (by decide) (by decide)

/-- C7: when the classifier is unavailable (model not loaded, or the
internal prediction pipeline raises), `predict` does not raise and returns
the explicit fallback: label "Moderate", confidence 0.5, and near-uniform
class probabilities (each within 1/100 of 1/3, so distinguishable from a
real classification by its exact constants); consequently the scheduler's
recordAnswer path (update_student_engagement) completes for any known
student and stores the level "Moderate" instead of crashing. -/
theorem predictor_fallback_no_crash (pr : Predictor)
    (hun : pr.model_loaded = false ∨
      ∀ ic rt rtt qd nq, pr.inner ic rt rtt qd nq = none) :
    (∀ ic rt rtt qd nq,
      predict_from_system_data pr ic rt rtt qd nq = fallbackPrediction) ∧
    fallbackPrediction.label = "Moderate" ∧
    fallbackPrediction.confidence = 1 / 2 ∧
    |fallbackPrediction.probs.active - 1 / 3| ≤ 1 / 100 ∧
    |fallbackPrediction.probs.moderate - 1 / 3| ≤ 1 / 100 ∧
    |fallbackPrediction.probs.passive - 1 / 3| ≤ 1 / 100 ∧
    (∀ rng now st stud ic rt rtt qd sch,
      lookupA stud st.student_schedules = some sch →
      ∃ st', update_student_engagement pr rng now st stud ic rt rtt qd = some st' ∧
        (lookupA stud st'.student_schedules).map (fun s => s.engagement_level) =
          some "Moderate") := by
  have hfb : ∀ ic rt rtt qd nq,
      predict_from_system_data pr ic rt rtt qd nq = fallbackPrediction := by
    intro ic rt rtt qd nq
    unfold predict_from_system_data predict
    rcases hun with hL | hN
    · rw [hL]
      simp
    · by_cases hL : pr.model_loaded = false
      · rw [hL]
        simp
      · rw [if_neg hL, hN ic rt rtt qd nq]
  refine ⟨hfb, rfl, by norm_num [fallbackPrediction], ?_, ?_, ?_, ?_⟩
  · rw [abs_le]
    constructor <;> norm_num [fallbackPrediction]
  · rw [abs_le]
    constructor <;> norm_num [fallbackPrediction]
  · rw [abs_le]
    constructor <;> norm_num [fallbackPrediction]
  · intro rng now st stud ic rt rtt qd sch hp
    have hres := hfb ic rt rtt qd sch.last_network_quality
    unfold update_student_engagement
    rw [hp]
    simp only [hres]
    have hint : INTERVALS fallbackPrediction.label = some (300, 480) := by decide
    simp only [hint]
    cases hsd : lookupA sch.session_id st.active_sessions with
    | none =>
      refine ⟨_, rfl, ?_⟩
      simp [lookupA_updateA_self, fallbackPrediction]
    | some sd =>
      refine ⟨_, rfl, ?_⟩
      simp [lookupA_updateA_self, fallbackPrediction]

/-- Witness for C7: the unavailable predictor yields the exact fallback,
and recordAnswer for a known student completes with level "Moderate". -/
theorem predictor_fallback_no_crash_witness :
    predict_from_system_data predictorUnavailable true 10 100 "easy" "Good" =
      fallbackPrediction ∧
    (∃ st', update_student_engagement predictorUnavailable rngLo 0
        stAliasSessions "x" true 10 100 "easy" = some st' ∧
      (lookupA "x" st'.student_schedules).map (fun s => s.engagement_level) =
        some "Moderate") := by
  have h := predictor_fallback_no_crash predictorUnavailable (Or.inl rfl)
  exact ⟨h.1 true 10 100 "easy" "Good",
    h.2.2.2.2.2.2 rngLo 0 stAliasSessions "x" true 10 100 "easy"
      (schedModerate "S1") (by decide)⟩

/-- C10: each studentId has at most one Student Schedule (schedules are
keyed by studentId alone): adding a student who already has a schedule in
another session replaces that schedule entirely (session_id becomes the
new session, counters and history reset), leaves the key set of the
schedule map unchanged and duplicate-free, and leaves a stale entry for
the student in the old session's denormalized students map. -/
theorem add_student_single_schedule_per_student (rng : Nat → Nat → Nat) (now : Nat)
    (st : SchedulerState) (S1 S2 x lvl : String) (sch1 : Schedule)
    (sd1 : SessionData) (lvl1 : String) (mn mx : Nat)
    (hp : lookupA x st.student_schedules = some sch1) (_hs1 : sch1.session_id = S1)
    (hsd : lookupA S1 st.active_sessions = some sd1)
    (hmem : lookupA x sd1.students = some lvl1)
    (hne : S2 ≠ S1) (hI : INTERVALS lvl = some (mn, mx))
    (hn : (keysA st.student_schedules).Nodup) :
    ∃ st', add_student rng now st S2 x lvl = some st' ∧
      (∃ sch2, lookupA x st'.student_schedules = some sch2 ∧
        sch2.session_id = S2 ∧ sch2.questions_sent = 0 ∧
        sch2.questions_answered = 0 ∧ sch2.questions_correct = 0 ∧
        sch2.engagement_history = [lvl]) ∧
      keysA st'.student_schedules = keysA st.student_schedules ∧
      (keysA st'.student_schedules).Nodup ∧
      (∃ sd1b, lookupA S1 st'.active_sessions = some sd1b ∧
        lookupA x sd1b.students = some lvl1) := by
  have hkeys := keysA_updateA_of_lookup hp
  unfold add_student
  rw [hI]
  simp only
  cases hpre : lookupA S2 st.active_sessions with
  | some sd2 =>
    simp only [hpre, Option.isSome_some, if_true]
    refine ⟨_, rfl, ⟨_, lookupA_updateA_self _ _ _, rfl, rfl, rfl, rfl, rfl⟩,
      ?_, ?_, ?_⟩
    · simp only [hkeys]
    · simp only [hkeys]; exact hn
    · refine ⟨sd1, ?_, hmem⟩
      simp only [lookupA_updateA_ne (Ne.symm hne)]
      exact hsd
  | none =>
    simp only [hpre, Option.isSome_none, Bool.false_eq_true, if_false,
      start_session, lookupA_updateA_self]
    refine ⟨_, rfl, ⟨_, lookupA_updateA_self _ _ _, rfl, rfl, rfl, rfl, rfl⟩,
      ?_, ?_, ?_⟩
    · simp only [hkeys]
    · simp only [hkeys]; exact hn
    · refine ⟨sd1, ?_, hmem⟩
      simp only [lookupA_updateA_ne (Ne.symm hne)]
      exact hsd

/-- C1: alias-union correctness of the quiz trigger. When the candidate id
set of a trigger contains aliases A and B of the same session, student X
joined (with a working transport) under A and student Y under B, and
neither is an instructor connection, then the trigger reaches both X and Y
(neither is silently excluded), and the effective id it selects is a
candidate id with the most joined participants among all candidate ids. -/
theorem trigger_question_alias_union (rooms : SessionRooms) (meeting_id : String)
    (doc : Option SessionDoc) (now : Nat) (A B X Y : String) (pX pY : Participant)
    (hA : A ∈ build_candidate_ids meeting_id doc)
    (hB : B ∈ build_candidate_ids meeting_id doc)
    (hX : lookupRoomEntry rooms A X = some pX) (hXok : joinedOk pX = true)
    (hY : lookupRoomEntry rooms B Y = some pY) (hYok : joinedOk pY = true)
    (hXs : X.startsWith "instructor_" = false)
    (hYs : Y.startsWith "instructor_" = false) :
    X ∈ (trigger_question rooms meeting_id doc now).2.sentStudentIds ∧
    Y ∈ (trigger_question rooms meeting_id doc now).2.sentStudentIds ∧
    (trigger_question rooms meeting_id doc now).2.effectiveId ∈
      build_candidate_ids meeting_id doc ∧
    ∀ k ∈ build_candidate_ids meeting_id doc,
      (get_session_participants rooms k).length ≤
        (get_session_participants rooms
          (trigger_question rooms meeting_id doc now).2.effectiveId).length := by
  have hinfo : ∀ (S s : String) (p : Participant),
      lookupRoomEntry rooms S s = some p → joinedOk p = true →
      participantInfo s p ∈ get_session_participants rooms S := by
    intro S s p hp hok
    cases hr : lookupA S rooms with
    | none =>
      rw [lookupRoomEntry_eq, hr] at hp
      exact Option.noConfusion hp
    | some room =>
      rw [lookupRoomEntry_eq, hr, Option.some_bind] at hp
      unfold get_session_participants
      rw [hr]
      exact List.mem_map.mpr ⟨(s, p),
        List.mem_filter.mpr ⟨mem_of_lookupA hp, by simp [joinedOk_status hok]⟩, rfl⟩
  have htagX := mem_tagged_of_mem (hinfo A X pX hX hXok) _ hA
  have htagY := mem_tagged_of_mem (hinfo B Y pY hY hYok) _ hB
  have hne : get_session_participants_by_multiple_ids rooms
      (build_candidate_ids meeting_id doc) ≠ [] := List.ne_nil_of_mem htagX
  have hne1 : (get_session_participants_by_multiple_ids rooms
      (build_candidate_ids meeting_id doc)).isEmpty = false := by
    cases h : get_session_participants_by_multiple_ids rooms
        (build_candidate_ids meeting_id doc) with
    | nil => exact absurd h hne
    | cons a l => rfl
  have hstudX : tagOf A (participantInfo X pX) ∈
      trigger_students rooms meeting_id doc :=
    List.mem_filter.mpr ⟨htagX, by simp [tagOf, participantInfo, hXs]⟩
  have hstudY : tagOf B (participantInfo Y pY) ∈
      trigger_students rooms meeting_id doc :=
    List.mem_filter.mpr ⟨htagY, by simp [tagOf, participantInfo, hYs]⟩
  have hne2 : (trigger_students rooms meeting_id doc).isEmpty = false := by
    cases h : trigger_students rooms meeting_id doc with
    | nil => rw [h] at hstudX; exact absurd hstudX (List.not_mem_nil _)
    | cons a l => rfl
  rw [trigger_question_spec now hne1 hne2]
  obtain ⟨heffmem, heffmax⟩ := trigger_effective_max rooms meeting_id doc hne
  refine ⟨?_, ?_, heffmem, heffmax⟩
  · exact foldSend_mem now (trigger_effective rooms meeting_id doc) A X pX hXok
      (trigger_students rooms meeting_id doc) (rooms, 0, []) hX
      ⟨tagOf A (participantInfo X pX), hstudX, rfl, rfl⟩
  · exact foldSend_mem now (trigger_effective rooms meeting_id doc) B Y pY hYok
      (trigger_students rooms meeting_id doc) (rooms, 0, []) hY
      ⟨tagOf B (participantInfo Y pY), hstudY, rfl, rfl⟩

/-- Witness for C1: with aliases A and B of the same session document,
student x joined under A, students y and z under B: the trigger reaches x
and y, and selects an effective id that maximizes the joined count. -/
theorem trigger_question_alias_union_witness :
    "x" ∈ (trigger_question roomsC1 "A" docC1 7).2.sentStudentIds ∧
    "y" ∈ (trigger_question roomsC1 "A" docC1 7).2.sentStudentIds ∧
    (trigger_question roomsC1 "A" docC1 7).2.effectiveId ∈
      build_candidate_ids "A" docC1 ∧
    ∀ k ∈ build_candidate_ids "A" docC1,
      (get_session_participants roomsC1 k).length ≤
        (get_session_participants roomsC1
          (trigger_question roomsC1 "A" docC1 7).2.effectiveId).length := by
  exact trigger_question_alias_union roomsC1 "A" docC1 7 "A" "B" "x" "y"
    pAliasX pAliasY (by decide) (by decide) (by decide) (by decide)
    (by decide) (by decide) (by decide) (by decide)

/-- Witness for C10: student x, scheduled in S1, is added to S2: the single
schedule now belongs to S2 with reset counters, and S1's students map
still lists x. -/
theorem add_student_single_schedule_per_student_witness :
    ∃ st', add_student rngLo 0 stAliasSessions "S2" "x" "Active" = some st' ∧
      (∃ sch2, lookupA "x" st'.student_schedules = some sch2 ∧
        sch2.session_id = "S2" ∧ sch2.questions_sent = 0 ∧
        sch2.questions_answered = 0 ∧ sch2.questions_correct = 0 ∧
        sch2.engagement_history = ["Active"]) ∧
      keysA st'.student_schedules = keysA stAliasSessions.student_schedules ∧
      (keysA st'.student_schedules).Nodup ∧
      (∃ sd1b, lookupA "S1" st'.active_sessions = some sd1b ∧
        lookupA "x" sd1b.students = some "Moderate") := by
  exact add_student_single_schedule_per_student rngLo 0 stAliasSessions
    "S1" "S2" "x" "Active" (schedModerate "S1")
    { start_time := 0, students := [("x", "Moderate")], questions_sent := 0 }
    "Moderate" 600 900
    (by decide) rfl (by decide) (by decide) (by decide) (by decide) (by decide)

end LearningPlatform
